import Mathlib

/-!
Verification of the `Database` normalization pipeline of `src/scripts/plot.py`
(aries-bench). The polars dataframes are shallowly embedded as lists of
records; each builder and enrichment pass of the Python `Database` class is
translated into a Lean function over those lists.

Modelling conventions, chosen to match polars semantics:
* a nullable column value is an `Option`;
* `unique()` is `List.dedup` (the subsequent sort on the full uniqueness key
  makes the row order canonical);
* `sort(...)` is a stable insertion sort on the declared key (ties only occur
  where the claims are insensitive to tie order);
* joins on a unique right key are `List.find?` lookups; a left-join miss is
  `none` and an inner-join miss drops the row;
* group aggregations (`group_by(...).agg(...)`) aggregate, for each distinct
  key, over the rows of the group in their original order;
* min/max aggregates ignore nulls (`filterMap` before `min?`/`max?`);
* arithmetic between nullable columns propagates `none`;
* a `pl.when(c).then(a).otherwise(b)` with a null condition is null;
* float division of integer columns is exact division in `ℚ`; a zero divisor
  yields `none` (standing for the non-finite float results, which no claim
  relies on);
* a Python `assert` is a check returning `none` (fatal abort) on failure, and
  messages printed to stderr before an abort are collected in a `List String`.
-/

/-- Problem type enum (`pl.Enum(categories=["minimize", "maximize"])`). -/
inductive ProblemType where
  | minimize
  | maximize
deriving DecidableEq, Repr

/-- Event type enum (`pl.Enum(categories=["start", "new_solution"])`). -/
inductive EventType where
  | start
  | new_solution
deriving DecidableEq, Repr

/-- One row of the raw dataframe produced by `Database.read_raw_df`
(plot.py 76-127): the `configuration` tag column followed by the ten CSV
columns, with `time` already converted to a microsecond duration (an
integer count).  The unsigned counter columns are modelled as `Int`. -/
structure RawRow where
  configuration : String
  problem : String
  flatzinc : String
  type : EventType
  num_solutions : Int
  objective : Int
  time : Int
  num_decisions : Int
  num_conflicts : Int
  num_dom_updates : Int
  num_restarts : Int
deriving DecidableEq, Repr

/-- One row of the problem dataframe (plot.py 130-143).  The `type` column
only exists after `add_problem_type`; before that it is `none`. -/
structure ProblemRow where
  id : Nat
  name : String
  type : Option ProblemType := none
deriving DecidableEq, Repr

/-- One row of the flatzinc (instance) dataframe (plot.py 146-176), with the
columns later added by the enrichment passes defaulted to `none`.
`problem_id` is nullable because the builder uses a left join. -/
structure FlatzincRow where
  id : Nat
  name : String
  problem_id : Option Nat
  problem_type : Option ProblemType := none
  objective_lb : Option Int := none
  objective_ub : Option Int := none
  objective_bb : Option Int := none
  objective_wb : Option Int := none
  time_fsol : Option Int := none
  time_lsol : Option Int := none
  num_decisions_fsol : Option Int := none
  num_decisions_lsol : Option Int := none
deriving DecidableEq, Repr

/-- One row of the configuration dataframe (plot.py 179-215).  The three
structured-name fields are nullable, exactly as the struct fields produced
by `str.split_exact("_", 2)`. -/
structure ConfigurationRow where
  id : Nat
  name : String
  var_order : Option String
  value_order : Option String
  restart : Option String
deriving DecidableEq, Repr

/-- One row of the run dataframe (plot.py 218-266) with all
enrichment columns defaulted to `none`. -/
structure RunRow where
  id : Nat
  flatzinc_id : Nat
  configuration_id : Nat
  objective_lb : Option Int := none
  objective_ub : Option Int := none
  objective_bb : Option Int := none
  objective_wb : Option Int := none
  num_solutions : Option Int := none
  objective_score : Option ℚ := none
  time_fsol : Option Int := none
  time_lsol : Option Int := none
  num_decisions_fsol : Option Int := none
  num_decisions_lsol : Option Int := none
  autc_score : Option ℚ := none
  audc_score : Option ℚ := none
deriving DecidableEq, Repr

/-- One row of the event dataframe (plot.py 269-320): `run.id` resolved by a
left join (hence nullable) followed by the raw columns other than the three
name columns. -/
structure EventRow where
  id : Nat
  run_id : Option Nat
  type : EventType
  num_solutions : Int
  objective : Int
  time : Int
  num_decisions : Int
  num_conflicts : Int
  num_dom_updates : Int
  num_restarts : Int
deriving DecidableEq, Repr

/-- Null-propagating binary arithmetic on nullable integer columns. -/
def optBin (f : Int → Int → Int) : Option Int → Option Int → Option Int
  | some a, some b => some (f a b)
  | _, _ => none

/-- Null-propagating subtraction of two nullable integer columns. -/
def optSub (a b : Option Int) : Option Int := optBin (fun x y => x - y) a b

/-- Null-propagating addition of two nullable integer columns. -/
def optAdd (a b : Option Int) : Option Int := optBin (fun x y => x + y) a b

/-- Null-propagating multiplication of two nullable integer columns. -/
def optMul (a b : Option Int) : Option Int := optBin (fun x y => x * y) a b

/-- Null-propagating absolute value of a nullable integer column. -/
def optAbs (a : Option Int) : Option Int := a.map (fun x => |x|)

/-- Float division of two nullable integer columns, modelled exactly in `ℚ`.
A zero divisor gives `none` (the float result would be `±inf` or `nan`;
no verified claim depends on that case). -/
def optDiv (a b : Option Int) : Option ℚ :=
  match a, b with
  | some x, some y => if y = 0 then none else some ((x : ℚ) / (y : ℚ))
  | _, _ => none

/-- Comparison `left.ge(right)` between two nullable column values: the null
result of a comparison with a null side counts as `True` because the polars
`all()` that consumes it ignores nulls. -/
def optGe : Option Int → Option Int → Prop
  | some x, some y => y ≤ x
  | _, _ => True

instance : DecidableRel optGe := fun a b =>
  match a, b with
  | some x, some y => inferInstanceAs (Decidable (y ≤ x))
  | some _, none => .isTrue trivial
  | none, some _ => .isTrue trivial
  | none, none => .isTrue trivial

/-- Comparison `left.ge(right)` between two nullable columns followed by
`.all()`: polars `all` ignores the null results of null comparisons, so only
pairs where both sides are non-null constrain the outcome. -/
def optGeAll (l : List (Option Int × Option Int)) : Prop :=
  ∀ p ∈ l, optGe p.1 p.2

instance : DecidablePred optGeAll := fun l =>
  inferInstanceAs (Decidable (∀ p ∈ l, optGe p.1 p.2))

/-- Lexical order on strings used by `pl.Categorical(ordering="lexical")`,
via the underlying character lists (the native `String` order does not
reduce in the kernel). -/
def nameLe (a b : String) : Prop := a.data ≤ b.data

instance : DecidableRel nameLe := fun a b => inferInstanceAs (Decidable (a.data ≤ b.data))

instance : IsTotal String nameLe := ⟨fun a b => le_total a.data b.data⟩

instance : IsTrans String nameLe := ⟨fun _ _ _ h h2 => le_trans h h2⟩

/-- Strict order on a nullable integer key: polars sorts nulls first. -/
def optNatLt : Option Nat → Option Nat → Prop
  | none, some _ => True
  | some a, some b => a < b
  | _, none => False

instance : DecidableRel optNatLt := fun a b =>
  match a, b with
  | none, some _ => .isTrue trivial
  | none, none => .isFalse (fun h => h)
  | some _, none => .isFalse (fun h => h)
  | some a, some b => inferInstanceAs (Decidable (a < b))

/-- Lexicographic sort order on a nullable integer primary key (nulls first,
as polars sorts) refined by a secondary order `k2`. -/
def lexNullFirst {α : Type} (k1 : α → Option Nat) (k2 : α → α → Prop) (a b : α) : Prop :=
  optNatLt (k1 a) (k1 b) ∨ (k1 a = k1 b ∧ k2 a b)

instance {α : Type} (k1 : α → Option Nat) (k2 : α → α → Prop) [DecidableRel k2] :
    DecidableRel (lexNullFirst k1 k2) := fun a b =>
  inferInstanceAs (Decidable (optNatLt (k1 a) (k1 b) ∨ (k1 a = k1 b ∧ k2 a b)))

instance {α : Type} (k1 : α → Option Nat) (k2 : α → α → Prop) [IsTotal α k2] :
    IsTotal α (lexNullFirst k1 k2) where
  total a b := by
    unfold lexNullFirst
    rcases e1 : k1 a with _ | x <;> rcases e2 : k1 b with _ | y
    · rcases total_of k2 a b with h | h
      · exact Or.inl (Or.inr ⟨rfl, h⟩)
      · exact Or.inr (Or.inr ⟨rfl, h⟩)
    · exact Or.inl (Or.inl trivial)
    · exact Or.inr (Or.inl trivial)
    · rcases Nat.lt_trichotomy x y with h | h | h
      · exact Or.inl (Or.inl h)
      · subst h
        rcases total_of k2 a b with h2 | h2
        · exact Or.inl (Or.inr ⟨rfl, h2⟩)
        · exact Or.inr (Or.inr ⟨rfl, h2⟩)
      · exact Or.inr (Or.inl h)

instance {α : Type} (k1 : α → Option Nat) (k2 : α → α → Prop) [IsTrans α k2] :
    IsTrans α (lexNullFirst k1 k2) where
  trans a b c hab hbc := by
    unfold lexNullFirst at hab hbc ⊢
    rcases e1 : k1 a with _ | x <;> rcases e2 : k1 b with _ | y <;> rcases e3 : k1 c with _ | z <;>
        rw [e1, e2] at hab <;> rw [e2, e3] at hbc
    · rcases hab with h1 | ⟨_, h1⟩
      · exact False.elim h1
      · rcases hbc with h2 | ⟨_, h2⟩
        · exact False.elim h2
        · exact Or.inr ⟨rfl, trans_of k2 h1 h2⟩
    · exact Or.inl trivial
    · rcases hbc with h2 | ⟨e, _⟩
      · exact False.elim h2
      · exact absurd e (Option.some_ne_none y)
    · exact Or.inl trivial
    · rcases hab with h1 | ⟨e, _⟩
      · exact False.elim h1
      · exact absurd e (Option.some_ne_none x)
    · rcases hab with h1 | ⟨e, _⟩
      · exact False.elim h1
      · exact absurd e (Option.some_ne_none x)
    · rcases hbc with h2 | ⟨e, _⟩
      · exact False.elim h2
      · exact absurd e (Option.some_ne_none y)
    · rcases hab with h1 | ⟨e, h1⟩ <;> rcases hbc with h2 | ⟨e2, h2⟩
      · exact Or.inl (Nat.lt_trans h1 h2)
      · cases e2
        exact Or.inl h1
      · cases e
        exact Or.inl h2
      · cases e
        cases e2
        exact Or.inr ⟨rfl, trans_of k2 h1 h2⟩

/-- Secondary order for the flatzinc builder: flatzinc name. -/
def fzSndLe (a b : (Option Nat) × String) : Prop := nameLe a.2 b.2

instance : DecidableRel fzSndLe := fun a b => inferInstanceAs (Decidable (nameLe a.2 b.2))

instance : IsTotal ((Option Nat) × String) fzSndLe := ⟨fun a b => le_total a.2.data b.2.data⟩

instance : IsTrans ((Option Nat) × String) fzSndLe := ⟨fun _ _ _ h h2 => le_trans h h2⟩

/-- Sort key order of the flatzinc builder: `sort("problem.id", "name")`
on the pre-index pairs (problem id, flatzinc name), nulls first. -/
def fzKeyLe : ((Option Nat) × String) → ((Option Nat) × String) → Prop :=
  lexNullFirst Prod.fst fzSndLe

instance : DecidableRel fzKeyLe :=
  inferInstanceAs (DecidableRel (lexNullFirst Prod.fst fzSndLe))

instance : IsTotal ((Option Nat) × String) fzKeyLe :=
  inferInstanceAs (IsTotal _ (lexNullFirst Prod.fst fzSndLe))

instance : IsTrans ((Option Nat) × String) fzKeyLe :=
  inferInstanceAs (IsTrans _ (lexNullFirst Prod.fst fzSndLe))

/-- Secondary order for the run builder: configuration id. -/
def runSndLe (a b : Nat × Nat) : Prop := a.2 ≤ b.2

instance : DecidableRel runSndLe := fun a b => inferInstanceAs (Decidable (a.2 ≤ b.2))

instance : IsTotal (Nat × Nat) runSndLe := ⟨fun a b => Nat.le_total a.2 b.2⟩

instance : IsTrans (Nat × Nat) runSndLe := ⟨fun _ _ _ h h2 => Nat.le_trans h h2⟩

/-- Sort key order of the run builder: `sort("flatzinc.id", "configuration.id")`
on the pre-index id pairs. -/
def runKeyLe : (Nat × Nat) → (Nat × Nat) → Prop :=
  lexNullFirst (fun p => some p.1) runSndLe

instance : DecidableRel runKeyLe :=
  inferInstanceAs (DecidableRel (lexNullFirst (fun p : Nat × Nat => some p.1) runSndLe))

instance : IsTotal (Nat × Nat) runKeyLe :=
  inferInstanceAs (IsTotal _ (lexNullFirst (fun p : Nat × Nat => some p.1) runSndLe))

instance : IsTrans (Nat × Nat) runKeyLe :=
  inferInstanceAs (IsTrans _ (lexNullFirst (fun p : Nat × Nat => some p.1) runSndLe))

/-- Secondary order for the event builder: event time. -/
def eventSndLe (a b : (Option Nat) × RawRow) : Prop := a.2.time ≤ b.2.time

instance : DecidableRel eventSndLe := fun a b => inferInstanceAs (Decidable (a.2.time ≤ b.2.time))

instance : IsTotal ((Option Nat) × RawRow) eventSndLe := ⟨fun a b => le_total a.2.time b.2.time⟩

instance : IsTrans ((Option Nat) × RawRow) eventSndLe := ⟨fun _ _ _ h h2 => le_trans h h2⟩

/-- Sort key order of the event builder: `sort("run.id", "time")` on the
pre-index (run id, raw row) pairs, null run ids first. -/
def eventKeyLe : ((Option Nat) × RawRow) → ((Option Nat) × RawRow) → Prop :=
  lexNullFirst Prod.fst eventSndLe

instance : DecidableRel eventKeyLe :=
  inferInstanceAs (DecidableRel (lexNullFirst Prod.fst eventSndLe))

instance : IsTotal ((Option Nat) × RawRow) eventKeyLe :=
  inferInstanceAs (IsTotal _ (lexNullFirst Prod.fst eventSndLe))

instance : IsTrans ((Option Nat) × RawRow) eventKeyLe :=
  inferInstanceAs (IsTrans _ (lexNullFirst Prod.fst eventSndLe))

/-- Sort key order used by the configuration builder: `sort("name")` on the
(name, parsed fields) pairs. -/
def cfgKeyLe (a b : String × (Option String × Option String × Option String)) : Prop :=
  nameLe a.1 b.1

instance : DecidableRel cfgKeyLe := fun a b => inferInstanceAs (Decidable (nameLe a.1 b.1))

instance : IsTotal (String × (Option String × Option String × Option String)) cfgKeyLe :=
  ⟨fun a b => le_total a.1.data b.1.data⟩

instance : IsTrans (String × (Option String × Option String × Option String)) cfgKeyLe :=
  ⟨fun _ _ _ h h2 => le_trans h h2⟩

/-- Sort order of the rebuilt problem dataframe in `add_problem_type`:
`sort("id")`. -/
def problemIdLe (a b : ProblemRow) : Prop := a.id ≤ b.id

instance : DecidableRel problemIdLe := fun a b => inferInstanceAs (Decidable (a.id ≤ b.id))

instance : IsTotal ProblemRow problemIdLe := ⟨fun a b => Nat.le_total a.id b.id⟩

instance : IsTrans ProblemRow problemIdLe := ⟨fun _ _ _ h h2 => Nat.le_trans h h2⟩

/-- Split of a character list on a separator character.  Used to model the
underscore split of configuration names (`String.splitOn` does not reduce in
the kernel). -/
def splitChar (sep : Char) : List Char → List (List Char)
  | [] => [[]]
  | c :: cs =>
    let r := splitChar sep cs
    if c = sep then [] :: r
    else
      match r with
      | [] => [[c]]
      | h :: t => (c :: h) :: t

/-- Model of `pl.col("configuration").cast(pl.String).str.split_exact("_", 2)`
followed by `struct.rename_fields(["var_order", "value_order", "restart"])`
(plot.py 185-190).  polars `split_exact(by, n)` produces a struct of `n+1`
fields holding the first `n+1` fragments of the plain split, with missing
fragments null (fragments beyond `n+1` are discarded). -/
def splitExact2 (s : String) : Option String × Option String × Option String :=
  let parts := (splitChar '_' s.data).map (fun cs => String.mk cs)
  (parts[0]?, parts[1]?, parts[2]?)

/-- Model of a fatal uniqueness `assert` on a key column: the dataframe is
returned only when the key values are pairwise distinct. -/
def assertUnique {α β : Type} [DecidableEq β] (key : α → β) (df : List α) : Option (List α) :=
  if (df.map key).Nodup then some df else none

/-- The distinct problem names of the raw table (`select("problem").unique()`). -/
def problemNames (raw_df : List RawRow) : List String :=
  (raw_df.map (fun r => r.problem)).dedup

/-- The problem rows before the uniqueness assert: names sorted and densely
re-indexed. -/
def problemBuilt (raw_df : List RawRow) : List ProblemRow :=
  (List.insertionSort nameLe (problemNames raw_df)).enum.map
    (fun p => ({ id := p.1, name := p.2 } : ProblemRow))

/-- Mirror of `Database.make_problem_df` (plot.py 130-143): distinct problem
names, sorted by name, densely re-indexed, with the name-uniqueness assert. -/
def make_problem_df (raw_df : List RawRow) : Option (List ProblemRow) :=
  assertUnique (fun r => r.name) (problemBuilt raw_df)

/-- The distinct (problem, flatzinc) name pairs left-joined to the problem
table to replace the problem name by its id (plot.py 149-166), sorted by
(problem id, name) (plot.py 169). -/
def fzSorted (raw_df : List RawRow) (problem_df : List ProblemRow) :
    List ((Option Nat) × String) :=
  List.insertionSort fzKeyLe
    (((raw_df.map (fun r => (r.problem, r.flatzinc))).dedup).map (fun pr =>
      ((problem_df.find? (fun p => decide (p.name = pr.1))).map (fun p => p.id), pr.2)))

/-- Mirror of `Database.make_flatzinc_df` (plot.py 146-176): distinct
(problem, flatzinc) pairs, left-joined to the problem table to replace the
problem name by its id, sorted by (problem id, name), checked unique, then
densely re-indexed. -/
def make_flatzinc_df (raw_df : List RawRow) (problem_df : List ProblemRow) :
    Option (List FlatzincRow) :=
  (assertUnique (fun q => q) (fzSorted raw_df problem_df)).map (fun checked =>
    checked.enum.map (fun p =>
      ({ id := p.1, name := p.2.2, problem_id := p.2.1 } : FlatzincRow)))

/-- The distinct configuration names with their parsed 3-field structs
(plot.py 182-190). -/
def configParsed (raw_df : List RawRow) :
    List (String × (Option String × Option String × Option String)) :=
  ((raw_df.map (fun r => r.configuration)).dedup).map (fun n => (n, splitExact2 n))

/-- The malformed rows of the configuration frame: those whose `restart`
field is null (plot.py 199). -/
def configBad (raw_df : List RawRow) :
    List (String × (Option String × Option String × Option String)) :=
  (configParsed raw_df).filter (fun p => decide (p.2.2.2 = none))

/-- The stderr lines printed for the malformed configuration names
(plot.py 202-203). -/
def configMsgs (raw_df : List RawRow) : List String :=
  (configBad raw_df).map (fun p =>
    "configuration '" ++ p.1 ++ "' is not of the form varorder_valueorder_restart")

/-- The configuration rows of a valid raw table: sorted by name and densely
re-indexed (plot.py 207-213). -/
def configBuilt (raw_df : List RawRow) : List ConfigurationRow :=
  (List.insertionSort cfgKeyLe (configParsed raw_df)).enum.map (fun p =>
    ({ id := p.1, name := p.2.1, var_order := p.2.2.1,
       value_order := p.2.2.2.1, restart := p.2.2.2.2 } : ConfigurationRow))

/-- Mirror of `Database.make_configuration_df` (plot.py 179-215): distinct
configuration names with the 3 structured fields parsed from the name; rows
whose `restart` field is null are reported (one stderr line each) and make
the build fail; otherwise rows are sorted by name and densely re-indexed. -/
def make_configuration_df (raw_df : List RawRow) :
    List String × Option (List ConfigurationRow) :=
  match configBad raw_df with
  | _ :: _ => (configMsgs raw_df, none)
  | [] => (configMsgs raw_df, some (configBuilt raw_df))

/-- Join of the flatzinc and problem tables on `problem.id` carrying the
problem name alongside each flatzinc row, as built at the start of
`make_run_df` and `make_event_df` (plot.py 227-235 and 279-287). -/
def fznJoin (problem_df : List ProblemRow) (flatzinc_df : List FlatzincRow) :
    List (FlatzincRow × String) :=
  flatzinc_df.filterMap (fun fz =>
    fz.problem_id.bind (fun pid =>
      (problem_df.find? (fun p => decide (p.id = pid))).map (fun p => (fz, p.name))))

/-- The distinct raw (configuration, problem, flatzinc) triples resolved to
(flatzinc id, configuration id) pairs through the two inner joins of
plot.py 237-257. -/
def runPairs (raw_df : List RawRow) (problem_df : List ProblemRow)
    (flatzinc_df : List FlatzincRow) (configuration_df : List ConfigurationRow) :
    List (Nat × Nat) :=
  ((raw_df.map (fun r => (r.configuration, r.problem, r.flatzinc))).dedup).filterMap (fun t =>
    ((fznJoin problem_df flatzinc_df).find? (fun q =>
      decide (q.2 = t.2.1 ∧ q.1.name = t.2.2))).bind (fun q =>
      (configuration_df.find? (fun c => decide (c.name = t.1))).map (fun c =>
        (q.1.id, c.id))))

/-- Mirror of `Database.make_run_df` (plot.py 218-266): distinct
(configuration, problem, flatzinc) triples resolved to (flatzinc id,
configuration id) pairs through inner joins, checked pairwise unique, sorted
by (flatzinc id, configuration id), then densely re-indexed. -/
def make_run_df (raw_df : List RawRow) (problem_df : List ProblemRow)
    (flatzinc_df : List FlatzincRow) (configuration_df : List ConfigurationRow) :
    Option (List RunRow) :=
  (assertUnique (fun q => q) (runPairs raw_df problem_df flatzinc_df configuration_df)).map
    (fun checked =>
      (List.insertionSort runKeyLe checked).enum.map (fun p =>
        ({ id := p.1, flatzinc_id := p.2.1, configuration_id := p.2.2 } : RunRow)))

/-- One row of the id-resolution frame built inside `make_event_df`
(plot.py 289-301): each run together with its configuration, problem and
flatzinc names recovered through left joins. -/
structure IdRow where
  run_id : Nat
  flatzinc_id : Nat
  configuration_id : Nat
  problem_name : Option String
  flatzinc_name : Option String
  configuration_name : Option String
deriving DecidableEq, Repr

/-- The id-resolution frame of `make_event_df` (plot.py 289-301). -/
def idJoin (problem_df : List ProblemRow) (flatzinc_df : List FlatzincRow)
    (configuration_df : List ConfigurationRow) (run_df : List RunRow) : List IdRow :=
  run_df.map (fun r =>
    let fz := (fznJoin problem_df flatzinc_df).find? (fun q => decide (q.1.id = r.flatzinc_id))
    let c := configuration_df.find? (fun c => decide (c.id = r.configuration_id))
    { run_id := r.id, flatzinc_id := r.flatzinc_id, configuration_id := r.configuration_id,
      problem_name := fz.map (fun q => q.2),
      flatzinc_name := fz.map (fun q => q.1.name),
      configuration_name := c.map (fun c => c.name) })

/-- The raw rows left-joined to their run id through the name triple
(plot.py 303-308): a join miss leaves a null run id and keeps the row. -/
def eventPre (raw_df : List RawRow) (problem_df : List ProblemRow)
    (flatzinc_df : List FlatzincRow) (configuration_df : List ConfigurationRow)
    (run_df : List RunRow) : List ((Option Nat) × RawRow) :=
  raw_df.map (fun row =>
    (((idJoin problem_df flatzinc_df configuration_df run_df).find? (fun i =>
      decide (i.configuration_name = some row.configuration ∧
        i.problem_name = some row.problem ∧ i.flatzinc_name = some row.flatzinc))).map
      (fun i => i.run_id), row))

/-- The event row built from one sorted, enumerated pre-row. -/
def eventRowOf (p : Nat × ((Option Nat) × RawRow)) : EventRow :=
  { id := p.1, run_id := p.2.1, type := p.2.2.type,
    num_solutions := p.2.2.num_solutions, objective := p.2.2.objective,
    time := p.2.2.time, num_decisions := p.2.2.num_decisions,
    num_conflicts := p.2.2.num_conflicts, num_dom_updates := p.2.2.num_dom_updates,
    num_restarts := p.2.2.num_restarts }

/-- Mirror of `Database.make_event_df` (plot.py 269-320): each raw row is
left-joined to its run id through the name triple (a miss leaves a null run
id and the row is kept), the name columns are dropped, rows are sorted by
(run id, time) and densely re-indexed.  The source function prints nothing
to stderr and has no assert, hence the constant empty message list and the
total result. -/
def make_event_df (raw_df : List RawRow) (problem_df : List ProblemRow)
    (flatzinc_df : List FlatzincRow) (configuration_df : List ConfigurationRow)
    (run_df : List RunRow) : List String × List EventRow :=
  ([], (List.insertionSort eventKeyLe
    (eventPre raw_df problem_df flatzinc_df configuration_df run_df)).enum.map eventRowOf)

/-- Mirror of the `Database` dataclass (plot.py 37-45). -/
structure Database where
  raw_df : List RawRow
  problem_df : List ProblemRow
  flatzinc_df : List FlatzincRow
  run_df : List RunRow
  configuration_df : List ConfigurationRow
  event_df : List EventRow
deriving DecidableEq, Repr

/-- Model of a fatal `assert` on an arbitrary condition. -/
def assertTrue {α : Type} (p : Prop) [Decidable p] (a : α) : Option α :=
  if p then some a else none

/-- Model of the fatal `is_sorted` assert on the problem name column
(plot.py 410). -/
def assertNamesSorted (df : List ProblemRow) : Option (List ProblemRow) :=
  if (df.map (fun p => p.name)).Pairwise nameLe then some df else none

/-- Model of the fatal `is_sorted` assert on the run id column
(plot.py 468). -/
def assertIdsSorted (df : List RunRow) : Option (List RunRow) :=
  if (df.map (fun r => r.id)).Pairwise (fun a b => a ≤ b) then some df else none

/-- Distinct keys of a `group_by` (polars leaves the group order unspecified;
every use below looks groups up by key, so the order does not matter). -/
def groupKeys {α κ : Type} [DecidableEq κ] (key : α → κ) (l : List α) : List κ :=
  (l.map key).dedup

/-- Rows of the group of key `k`, in their original order. -/
def keyRows {α κ : Type} [DecidableEq κ] (key : α → κ) (l : List α) (k : κ) : List α :=
  l.filter (fun a => decide (key a = k))

/-- Column `increase` of plot.py 328: some consecutive objective delta within
the group, in event order, is positive
(`(objective - objective.shift() > 0).any()`; the null first delta is
ignored by `any`). -/
def increasesB (objs : List Int) : Bool :=
  (objs.zip objs.tail).any (fun ab => decide (ab.1 < ab.2))

/-- Column `decrease` of plot.py 329: some consecutive objective delta within
the group is negative. -/
def decreasesB (objs : List Int) : Bool :=
  (objs.zip objs.tail).any (fun ab => decide (ab.2 < ab.1))

/-- Objective values of the events of one `group_by("run.id")` group of the
event dataframe, in event order. -/
def Database.runObjectives (db : Database) (k : Option Nat) : List Int :=
  (keyRows (fun e => e.run_id) db.event_df k).map (fun e => e.objective)

/-- One row of the per-run aggregation of plot.py 327-335. -/
structure RunVariation where
  run_id : Option Nat
  increase : Bool
  decrease : Bool
  monotonic : Bool
deriving DecidableEq, Repr

/-- The per-run increase/decrease aggregation of `add_problem_type`
(plot.py 327-335), including the derived `monotonic` column. -/
def Database.runVariations (db : Database) : List RunVariation :=
  (groupKeys (fun e => e.run_id) db.event_df).map (fun k =>
    let objs := db.runObjectives k
    { run_id := k, increase := increasesB objs, decrease := decreasesB objs,
      monotonic := !increasesB objs || !decreasesB objs })

/-- The (problem name, flatzinc name, configuration name) triples of the
non-monotonic runs (plot.py 338-350): the filtered per-run aggregation joined
back through the run, configuration, flatzinc and problem tables. -/
def Database.notMonotonicTriples (db : Database) : List (String × String × String) :=
  (db.runVariations.filter (fun v => !v.monotonic)).filterMap (fun v =>
    (db.run_df.find? (fun r => decide (some r.id = v.run_id))).bind (fun r =>
      (db.configuration_df.find? (fun c => decide (c.id = r.configuration_id))).bind (fun c =>
        (db.flatzinc_df.find? (fun fz => decide (fz.id = r.flatzinc_id))).bind (fun fz =>
          fz.problem_id.bind (fun pid =>
            (db.problem_df.find? (fun p => decide (p.id = pid))).map (fun p =>
              (p.name, fz.name, c.name)))))))

/-- One joined row of the problem-level aggregation input (plot.py 362-371). -/
structure TypedRun where
  variation : RunVariation
  run : RunRow
  flatzinc : FlatzincRow
  problem : ProblemRow
deriving DecidableEq, Repr

/-- The per-run variation rows joined back to the run, flatzinc and problem
tables (plot.py 362-371). -/
def Database.typedRuns (db : Database) : List TypedRun :=
  db.runVariations.filterMap (fun v =>
    (db.run_df.find? (fun r => decide (some r.id = v.run_id))).bind (fun r =>
      (db.flatzinc_df.find? (fun fz => decide (fz.id = r.flatzinc_id))).bind (fun fz =>
        fz.problem_id.bind (fun pid =>
          (db.problem_df.find? (fun p => decide (p.id = pid))).map (fun p =>
            ⟨v, r, fz, p⟩)))))

/-- One row of the per-problem aggregation (plot.py 374-378). -/
structure ProblemVariation where
  problem_id : Nat
  problem_name : String
  increase : Bool
  num_increase : Nat
  num_decrease : Nat
deriving DecidableEq, Repr

/-- The `group_by("problem.id", "problem.name")` aggregation of
plot.py 374-378: any-increase plus the counts of increasing and decreasing
runs under each problem. -/
def Database.problemVariations (db : Database) : List ProblemVariation :=
  (groupKeys (fun t => (t.problem.id, t.problem.name)) db.typedRuns).map (fun key =>
    let grp := keyRows (fun t => (t.problem.id, t.problem.name)) db.typedRuns key
    { problem_id := key.1, problem_name := key.2,
      increase := grp.any (fun t => t.variation.increase),
      num_increase := (grp.filter (fun t => t.variation.increase)).length,
      num_decrease := (grp.filter (fun t => t.variation.decrease)).length })

/-- Mirror of `Database.add_problem_type` (plot.py 323-413): fatal (with one
stderr line per offending run) if some run is non-monotonic, then fatal (one
stderr line per offending problem) if some problem has both increasing and
decreasing runs, otherwise the problem table is rebuilt from the per-problem
aggregation with `type = maximize if increase else minimize`, sorted by id,
with a final name-sortedness assert. -/
def Database.add_problem_type (db : Database) : List String × Option Database :=
  let badRuns := db.notMonotonicTriples
  let msgs1 := badRuns.map (fun t =>
    "objective value of '" ++ t.2.1 ++ "' from '" ++ t.1 ++ "' runned with '" ++
      t.2.2 ++ "' is not monotonic")
  match badRuns with
  | _ :: _ => (msgs1, none)
  | [] =>
    let boths := db.problemVariations.filter (fun v =>
      decide (v.num_decrease ≠ 0) && decide (v.num_increase ≠ 0))
    let msgs2 := boths.map (fun v =>
      "problem '" ++ toString v.problem_id ++ "' has " ++ toString v.num_decrease ++
        " decreasing runs and " ++ toString v.num_increase ++ " increasing")
    match boths with
    | _ :: _ => (msgs2, none)
    | [] =>
      let pdf := List.insertionSort problemIdLe (db.problemVariations.map (fun v =>
        ({ id := v.problem_id, name := v.problem_name,
           type := some (if v.increase then ProblemType.maximize else ProblemType.minimize) }
          : ProblemRow)))
      match assertNamesSorted pdf with
      | none => ([], none)
      | some pdf2 => ([], some { db with problem_df := pdf2 })

/-- Mirror of `Database.propagate_type_to_flatzinc` (plot.py 416-430): left
join of the flatzinc table with the problem table on `problem.id`, adding a
`problem.type` column (null on a join miss). -/
def Database.propagate_type_to_flatzinc (db : Database) : Database :=
  { db with flatzinc_df := db.flatzinc_df.map (fun fz =>
      { fz with problem_type :=
          (fz.problem_id.bind (fun pid =>
            db.problem_df.find? (fun p => decide (p.id = pid)))).bind (fun p => p.type) }) }

/-- The per-run min/max objective aggregation of plot.py 437-440. -/
def Database.runObjectiveBounds (db : Database) :
    List (Option Nat × Option Int × Option Int) :=
  (groupKeys (fun e => e.run_id) db.event_df).map (fun k =>
    (k, (db.runObjectives k).min?, (db.runObjectives k).max?))

/-- Best/worst-bound selection of plot.py 455-464 and 476-485:
`pl.when(pl.col("problem.type") == "minimize").then(x).otherwise(y)`, with
the polars null-condition semantics (a null type gives null). -/
def whenMinimize (t : Option ProblemType) (x y : Option Int) : Option Int :=
  match t with
  | none => none
  | some ProblemType.minimize => x
  | some ProblemType.maximize => y

/-- The joined per-run frame of plot.py 443-464: each run, left-joined with
its objective lb/ub aggregation and inner-joined with the flatzinc table for
the problem type, with the bb/wb columns computed. -/
def Database.boundedRuns (db : Database) : List (RunRow × Option ProblemType) :=
  db.run_df.filterMap (fun r =>
    let g := db.runObjectiveBounds.find? (fun g => decide (g.1 = some r.id))
    let lb := g.bind (fun g => g.2.1)
    let ub := g.bind (fun g => g.2.2)
    (db.flatzinc_df.find? (fun fz => decide (fz.id = r.flatzinc_id))).map (fun fz =>
      ({ r with
          objective_lb := lb
          objective_ub := ub
          objective_bb := whenMinimize fz.problem_type lb ub
          objective_wb := whenMinimize fz.problem_type ub lb }, fz.problem_type)))

/-- The aggregated columns of one (flatzinc id, problem type) group of
plot.py 470-485: min lb / max ub over the group's runs (nulls ignored by the
polars min/max), with bb/wb selected by the group's problem type. -/
def fzBoundsOfGroup (key : Nat × Option ProblemType)
    (grp : List (RunRow × Option ProblemType)) :
    Option Int × Option Int × Option Int × Option Int :=
  ((grp.filterMap (fun x => x.1.objective_lb)).min?,
   (grp.filterMap (fun x => x.1.objective_ub)).max?,
   whenMinimize key.2 (grp.filterMap (fun x => x.1.objective_lb)).min?
     (grp.filterMap (fun x => x.1.objective_ub)).max?,
   whenMinimize key.2 (grp.filterMap (fun x => x.1.objective_ub)).max?
     (grp.filterMap (fun x => x.1.objective_lb)).min?)

/-- The per-flatzinc aggregation of plot.py 470-485. -/
def Database.flatzincObjectiveBounds (db : Database) :
    List ((Nat × Option ProblemType) × Option Int × Option Int × Option Int × Option Int) :=
  (groupKeys (fun x => (x.1.flatzinc_id, x.2)) db.boundedRuns).map (fun key =>
    (key, fzBoundsOfGroup key (keyRows (fun x => (x.1.flatzinc_id, x.2)) db.boundedRuns key)))

/-- Mirror of `Database.add_objective_bounds` (plot.py 433-496): run-level
objective bounds (with the run-id sortedness assert) and flatzinc-level
aggregated bounds, both left-joined back onto their tables. -/
def Database.add_objective_bounds (db : Database) : Option Database :=
  (assertIdsSorted (db.boundedRuns.map (fun x => x.1))).map (fun run2 =>
    { db with
      run_df := run2,
      flatzinc_df := db.flatzinc_df.map (fun fz =>
        let g := db.flatzincObjectiveBounds.find? (fun g => decide (g.1.1 = fz.id))
        { fz with
            objective_lb := g.bind (fun g => g.2.1)
            objective_ub := g.bind (fun g => g.2.2.1)
            objective_bb := g.bind (fun g => g.2.2.2.1)
            objective_wb := g.bind (fun g => g.2.2.2.2) }) })

/-- Mirror of `Database.add_num_solutions` (plot.py 499-513): per-run max of
the solution counter over the events, left-joined onto the run table. -/
def Database.add_num_solutions (db : Database) : Database :=
  let agg := (groupKeys (fun e => e.run_id) db.event_df).map (fun k =>
    (k, ((keyRows (fun e => e.run_id) db.event_df k).map (fun e => e.num_solutions)).max?))
  { db with run_df := db.run_df.map (fun r =>
      { r with num_solutions :=
          (agg.find? (fun g => decide (g.1 = some r.id))).bind (fun g => g.2) }) }

/-- Mirror of `Database.add_objective_score` (plot.py 516-535): inner join of
the run table with the flatzinc objective columns, then
`objective_score = |run.bb - flatzinc.bb| / (flatzinc.ub - flatzinc.lb)`. -/
def Database.add_objective_score (db : Database) : Database :=
  { db with run_df := db.run_df.filterMap (fun r =>
      (db.flatzinc_df.find? (fun fz => decide (fz.id = r.flatzinc_id))).map (fun fz =>
        { r with
            objective_score :=
              optDiv (optAbs (optSub r.objective_bb fz.objective_bb))
                (optSub fz.objective_ub fz.objective_lb) })) }

/-- Selection of one metric column and of its derived fsol/lsol fields, for
the column-parametric passes `add_bounds` and `add_auc_score` (the Python
code addresses these fields through the column-name strings
`time` and `num_decisions`). -/
structure ColSpec where
  ev : EventRow → Int
  runF : RunRow → Option Int
  runL : RunRow → Option Int
  fzF : FlatzincRow → Option Int
  fzL : FlatzincRow → Option Int
  setRun : RunRow → Option Int → Option Int → RunRow
  setFz : FlatzincRow → Option Int → Option Int → FlatzincRow

/-- The `time` metric column. -/
def timeCol : ColSpec where
  ev := fun e => e.time
  runF := fun r => r.time_fsol
  runL := fun r => r.time_lsol
  fzF := fun fz => fz.time_fsol
  fzL := fun fz => fz.time_lsol
  setRun := fun r f l => { r with time_fsol := f, time_lsol := l }
  setFz := fun fz f l => { fz with time_fsol := f, time_lsol := l }

/-- The `num_decisions` metric column. -/
def numDecisionsCol : ColSpec where
  ev := fun e => e.num_decisions
  runF := fun r => r.num_decisions_fsol
  runL := fun r => r.num_decisions_lsol
  fzF := fun fz => fz.num_decisions_fsol
  fzL := fun fz => fz.num_decisions_lsol
  setRun := fun r f l => { r with num_decisions_fsol := f, num_decisions_lsol := l }
  setFz := fun fz f l => { fz with num_decisions_fsol := f, num_decisions_lsol := l }

/-- Mirror of `Database.add_bounds` (plot.py 538-575) for the given metric
column: per-run min/max of the column over `new_solution` events (left join,
so a run with no solution event gets nulls), then per-flatzinc min/max of
those run values (nulls ignored; a flatzinc whose runs are all null gets
nulls), both left-joined back onto their tables. -/
def Database.add_bounds (cs : ColSpec) (db : Database) : Database :=
  let solutions := db.event_df.filter (fun e => decide (e.type = EventType.new_solution))
  let runAgg := (groupKeys (fun e => e.run_id) solutions).map (fun k =>
    let vals := (keyRows (fun e => e.run_id) solutions k).map cs.ev
    (k, vals.min?, vals.max?))
  let run2 := db.run_df.map (fun r =>
    let g := runAgg.find? (fun g => decide (g.1 = some r.id))
    cs.setRun r (g.bind (fun g => g.2.1)) (g.bind (fun g => g.2.2)))
  let fzAgg := (groupKeys (fun r => r.flatzinc_id) run2).map (fun k =>
    let grp := keyRows (fun r => r.flatzinc_id) run2 k
    (k, (grp.filterMap cs.runF).min?, (grp.filterMap cs.runL).max?))
  { db with
    run_df := run2,
    flatzinc_df := db.flatzinc_df.map (fun fz =>
      let g := fzAgg.find? (fun g => decide (g.1 = fz.id))
      cs.setFz fz (g.bind (fun g => g.2.1)) (g.bind (fun g => g.2.2))) }

/-- The per-run step integral of plot.py 585-594:
`(objective * (col - col.shift())).sum()` over the `new_solution` events of
one run, in event order; the null first product is skipped by `sum`, and a
single-event group sums to 0. -/
def aucSum (cs : ColSpec) (evs : List EventRow) : Int :=
  ((evs.zip evs.tail).map (fun ab => ab.2.objective * (cs.ev ab.2 - cs.ev ab.1))).sum

/-- The final when/then/otherwise of plot.py 660-665: the area ratio if
minimizing, `1.0 - ratio` if maximizing, null for a null type. -/
def aucScoreOf (t : Option ProblemType) (ratio : Option ℚ) : Option ℚ :=
  match t with
  | none => none
  | some ProblemType.minimize => ratio
  | some ProblemType.maximize => ratio.map (fun x => 1 - x)

/-- The joined frame of plot.py 596-634: each run with its step integral
(left join on the per-run aggregation) and its flatzinc row (left join). -/
def Database.aucJoined (cs : ColSpec) (db : Database) :
    List (RunRow × Option Int × Option FlatzincRow) :=
  let solutions := db.event_df.filter (fun e => decide (e.type = EventType.new_solution))
  let aucAgg := (groupKeys (fun e => e.run_id) solutions).map (fun k =>
    (k, aucSum cs (keyRows (fun e => e.run_id) solutions k)))
  db.run_df.map (fun r =>
    (r, (aucAgg.find? (fun g => decide (g.1 = some r.id))).map (fun g => g.2),
     db.flatzinc_df.find? (fun fz => decide (fz.id = r.flatzinc_id))))

/-- The six fatal bound-containment asserts of plot.py 637-642, with the
polars null-skipping `all()` semantics. -/
def Database.aucAsserts (cs : ColSpec) (db : Database) : Prop :=
  let joined := db.aucJoined cs
  optGeAll (joined.map (fun x => (cs.runF x.1, x.2.2.bind (fun fz => cs.fzF fz)))) ∧
  optGeAll (joined.map (fun x => (x.2.2.bind (fun fz => cs.fzL fz), cs.runL x.1))) ∧
  optGeAll (joined.map (fun x => (x.1.objective_wb, x.2.2.bind (fun fz => fz.objective_lb)))) ∧
  optGeAll (joined.map (fun x => (x.1.objective_bb, x.2.2.bind (fun fz => fz.objective_lb)))) ∧
  optGeAll (joined.map (fun x => (x.2.2.bind (fun fz => fz.objective_ub), x.1.objective_wb))) ∧
  optGeAll (joined.map (fun x => (x.2.2.bind (fun fz => fz.objective_ub), x.1.objective_bb)))

instance (cs : ColSpec) (db : Database) : Decidable (db.aucAsserts cs) := by
  unfold Database.aucAsserts
  infer_instance

/-- The scored run row of plot.py 644-667: the run-local step integral
extended to the flatzinc window with the worst bound before the run's first
solution and the best bound after its last solution, the baseline rectangle
`(flatzinc.lsol - flatzinc.fsol) * flatzinc.objective_lb` subtracted, the
result divided by the flatzinc rectangle area, and the ratio direction-fixed
by `aucScoreOf`. -/
def aucScoredRun (cs : ColSpec) (setScore : RunRow → Option ℚ → RunRow)
    (x : RunRow × Option Int × Option FlatzincRow) : RunRow :=
  let fzF := x.2.2.bind (fun fz => cs.fzF fz)
  let fzL := x.2.2.bind (fun fz => cs.fzL fz)
  let fzLb := x.2.2.bind (fun fz => fz.objective_lb)
  let fzUb := x.2.2.bind (fun fz => fz.objective_ub)
  let rect := optMul (optSub fzUb fzLb) (optSub fzL fzF)
  let area := optSub
    (optAdd (optAdd x.2.1 (optMul (optSub (cs.runF x.1) fzF) x.1.objective_wb))
      (optMul (optSub fzL (cs.runL x.1)) x.1.objective_bb))
    (optMul (optSub fzL fzF) fzLb)
  setScore x.1 (aucScoreOf (x.2.2.bind (fun fz => fz.problem_type)) (optDiv area rect))

/-- Mirror of `Database.add_auc_score` (plot.py 578-673) for the given metric
column; `setScore` writes the target column (`autc_score` or `audc_score`).
The final `join(df.select("id", name), on="id", how="left")` of
plot.py 669-673 joins each run back to its own scored row, so the run table
is the scored rows. -/
def Database.add_auc_score (cs : ColSpec) (setScore : RunRow → Option ℚ → RunRow)
    (db : Database) : Option Database :=
  assertTrue (db.aucAsserts cs)
    { db with run_df := (db.aucJoined cs).map (aucScoredRun cs setScore) }

/-- Mirror of `Database.improve` (plot.py 676-686): the fixed sequence of
enrichment passes, stopping at the first fatal assert. -/
def Database.improve (db : Database) : List String × Option Database :=
  match db.add_problem_type with
  | (log, none) => (log, none)
  | (log, some db1) =>
    let db2 := db1.propagate_type_to_flatzinc
    match db2.add_objective_bounds with
    | none => (log, none)
    | some db3 =>
      let db4 := db3.add_num_solutions
      let db5 := db4.add_objective_score
      let db6 := Database.add_bounds timeCol db5
      let db7 := Database.add_bounds numDecisionsCol db6
      match Database.add_auc_score timeCol (fun r s => { r with autc_score := s }) db7 with
      | none => (log, none)
      | some db8 =>
        match Database.add_auc_score numDecisionsCol (fun r s => { r with audc_score := s }) db8 with
        | none => (log, none)
        | some db9 => (log, some db9)

/-- Mirror of `Database.read` (plot.py 53-72), with the CSV loading of
`read_raw_df` abstracted into the given raw row list: builds the five tables
in order and, when `improveFlag` is set, runs the enrichment passes.
Returns the collected stderr lines and the resulting database (`none` on any
fatal assert). -/
def Database.read (raw_df : List RawRow) (improveFlag : Bool) :
    List String × Option Database :=
  match make_problem_df raw_df with
  | none => ([], none)
  | some problem_df =>
    match make_flatzinc_df raw_df problem_df with
    | none => ([], none)
    | some flatzinc_df =>
      match make_configuration_df raw_df with
      | (clog, none) => (clog, none)
      | (clog, some configuration_df) =>
        match make_run_df raw_df problem_df flatzinc_df configuration_df with
        | none => (clog, none)
        | some run_df =>
          match make_event_df raw_df problem_df flatzinc_df configuration_df run_df with
          | (elog, event_df) =>
            let db : Database :=
              { raw_df := raw_df
                problem_df := problem_df
                flatzinc_df := flatzinc_df
                run_df := run_df
                configuration_df := configuration_df
                event_df := event_df }
            match improveFlag with
            | false => (clog ++ elog, some db)
            | true =>
              match db.improve with
              | (ilog, r) => (clog ++ elog ++ ilog, r)

/-- Raw row constructor for the test scenarios: counters other than
`num_solutions` and `num_decisions` are zero. -/
def mkRaw (configuration problem flatzinc : String) (t : EventType)
    (ns obj tm nd : Int) : RawRow :=
  { configuration := configuration, problem := problem, flatzinc := flatzinc,
    type := t, num_solutions := ns, objective := obj, time := tm,
    num_decisions := nd, num_conflicts := 0, num_dom_updates := 0, num_restarts := 0 }

/-- The raw rows of the end-to-end scenario of the spec (two configurations
`a_b_none` and `c_d_luby`, one problem `P`, one instance `I`). -/
def rawEndToEnd : List RawRow :=
  [mkRaw ("a_b_none") ("P") ("I") EventType.start 0 0 0 0,
   mkRaw ("a_b_none") ("P") ("I") EventType.new_solution 1 10 100 100,
   mkRaw ("a_b_none") ("P") ("I") EventType.new_solution 2 5 200 200,
   mkRaw ("c_d_luby") ("P") ("I") EventType.start 0 0 0 0,
   mkRaw ("c_d_luby") ("P") ("I") EventType.new_solution 1 8 50 50]

/-- A single run whose objective sequence is `[1, 2, 2, 3]` (increase only). -/
def rawIncreasing : List RawRow :=
  [mkRaw ("a_b_none") ("P") ("I") EventType.new_solution 1 1 0 0,
   mkRaw ("a_b_none") ("P") ("I") EventType.new_solution 2 2 1 1,
   mkRaw ("a_b_none") ("P") ("I") EventType.new_solution 3 2 2 2,
   mkRaw ("a_b_none") ("P") ("I") EventType.new_solution 4 3 3 3]

/-- A single run whose objective sequence is `[3, 2, 2, 1]` (decrease only). -/
def rawDecreasing : List RawRow :=
  [mkRaw ("a_b_none") ("P") ("I") EventType.new_solution 1 3 0 0,
   mkRaw ("a_b_none") ("P") ("I") EventType.new_solution 2 2 1 1,
   mkRaw ("a_b_none") ("P") ("I") EventType.new_solution 3 2 2 2,
   mkRaw ("a_b_none") ("P") ("I") EventType.new_solution 4 1 3 3]

/-- A single run whose objective sequence is `[1, 2, 1]` (both directions). -/
def rawBoth : List RawRow :=
  [mkRaw ("a_b_none") ("P") ("I") EventType.new_solution 1 1 0 0,
   mkRaw ("a_b_none") ("P") ("I") EventType.new_solution 2 2 1 1,
   mkRaw ("a_b_none") ("P") ("I") EventType.new_solution 3 1 2 2]

/-- One problem with an increasing run (`a_b_none`) and a decreasing run
(`c_d_luby`), each monotonic on its own. -/
def rawSplitProblem : List RawRow :=
  [mkRaw ("a_b_none") ("P") ("I") EventType.new_solution 1 1 0 0,
   mkRaw ("a_b_none") ("P") ("I") EventType.new_solution 2 2 1 1,
   mkRaw ("c_d_luby") ("P") ("I") EventType.new_solution 1 2 0 0,
   mkRaw ("c_d_luby") ("P") ("I") EventType.new_solution 2 1 1 1]

/-- One minimizing run with solutions at objective 10 (metric 0) and
objective 6 (metric 2): its step integral is 12, the area above the
baseline is 0, and the flatzinc rectangle is 8. -/
def rawAuc : List RawRow :=
  [mkRaw ("a_b_none") ("P") ("I") EventType.new_solution 1 10 0 0,
   mkRaw ("a_b_none") ("P") ("I") EventType.new_solution 2 6 2 2]

/-- Two runs: `a_b_none` has a single `start` event and no solution,
`c_d_luby` is a decreasing run with two solutions. -/
def rawNoSolution : List RawRow :=
  [mkRaw ("a_b_none") ("P") ("I") EventType.start 0 0 0 0,
   mkRaw ("c_d_luby") ("P") ("I") EventType.new_solution 1 5 1 1,
   mkRaw ("c_d_luby") ("P") ("I") EventType.new_solution 2 3 2 2]

/-- A raw table whose single configuration name has only two parts. -/
def rawOnlyTwo : List RawRow :=
  [mkRaw ("onlytwo_parts") ("P") ("I") EventType.new_solution 1 1 0 0]

/-- A raw table whose single configuration name has four parts. -/
def rawFourParts : List RawRow :=
  [mkRaw ("a_b_c_d") ("P") ("I") EventType.new_solution 1 1 0 0]

/-- Modelled from the spec (§4.5 step 6, claim C8): the claimed AUC score.
The step integral is extended to the instance window with the run's worst
bound before its first solution and its best bound after its last solution,
divided by the instance's bounding rectangle area
`(objective_ub - objective_lb) * (lsol - fsol)`, and the ratio is kept if
minimizing and replaced by `1 - ratio` if maximizing.  Unlike the source
computation (`aucScoredRun`), no baseline term `(fzL - fzF) * fzLb` is
subtracted from the numerator. -/
def specAucScore (t : Option ProblemType)
    (auc fsol lsol wb bb fzF fzL fzLb fzUb : Option Int) : Option ℚ :=
  aucScoreOf t (optDiv
    (optAdd (optAdd auc (optMul (optSub fsol fzF) wb)) (optMul (optSub fzL lsol) bb))
    (optMul (optSub fzUb fzLb) (optSub fzL fzF)))

/-- The empty database, used as a default when extracting concrete
intermediate pipeline stages. -/
def emptyDatabase : Database :=
  { raw_df := [], problem_df := [], flatzinc_df := [], run_df := [],
    configuration_df := [], event_df := [] }

/-- The freshly built (unimproved) database of a raw table. -/
def baseDb (raw : List RawRow) : Database :=
  ((Database.read raw false).2).getD emptyDatabase

/-- The database after `add_problem_type` and `propagate_type_to_flatzinc`. -/
def typedDb (raw : List RawRow) : Database :=
  (((baseDb raw).add_problem_type.2).map
    (fun db => db.propagate_type_to_flatzinc)).getD emptyDatabase

/-- The database after `add_objective_bounds`. -/
def boundedDb (raw : List RawRow) : Database :=
  ((typedDb raw).add_objective_bounds).getD emptyDatabase

/-- The database after `add_num_solutions`. -/
def countedDb (raw : List RawRow) : Database := (boundedDb raw).add_num_solutions

/-- The database after `add_objective_score`. -/
def scoredDb (raw : List RawRow) : Database := (countedDb raw).add_objective_score

/-- The database after both `add_bounds` passes. -/
def fsolDb (raw : List RawRow) : Database :=
  Database.add_bounds numDecisionsCol (Database.add_bounds timeCol (scoredDb raw))

/-- A problem table holding only problem `P`. -/
def problemOnlyP : List ProblemRow := [{ id := 0, name := "P" }]

/-- A flatzinc table holding only instance `I` of problem `P`. -/
def flatzincOnlyI : List FlatzincRow := [{ id := 0, name := "I", problem_id := some 0 }]

/-- The configuration table of the end-to-end scenario. -/
def configurationTableEE : List ConfigurationRow :=
  [{ id := 0, name := "a_b_none", var_order := some "a", value_order := some "b",
     restart := some "none" },
   { id := 1, name := "c_d_luby", var_order := some "c", value_order := some "d",
     restart := some "luby" }]

/-- The run table of the end-to-end scenario. -/
def runTableEE : List RunRow :=
  [{ id := 0, flatzinc_id := 0, configuration_id := 0 },
   { id := 1, flatzinc_id := 0, configuration_id := 1 }]

/-! Infrastructure lemmas about the embedding combinators. -/

theorem assertUnique_some {α β : Type} [DecidableEq β] {key : α → β} {df res : List α}
    (h : assertUnique key df = some res) : res = df ∧ (df.map key).Nodup := by
  unfold assertUnique at h
  split at h
  · exact ⟨(Option.some.inj h).symm, by assumption⟩
  · cases h

theorem assertTrue_some {α : Type} {p : Prop} [Decidable p] {a res : α}
    (h : assertTrue p a = some res) : p ∧ res = a := by
  unfold assertTrue at h
  split at h
  · exact ⟨by assumption, (Option.some.inj h).symm⟩
  · cases h

theorem build_ids_range {α β : Type} (l : List α) (f : Nat × α → β) (g : β → Nat)
    (h : ∀ p, g (f p) = p.1) : (l.enum.map f).map g = List.range (l.enum.map f).length := by
  rw [List.map_map, List.length_map, List.enum_length]
  calc l.enum.map (g ∘ f) = l.enum.map Prod.fst := List.map_congr_left (fun p _ => h p)
    _ = List.range l.length := List.enum_map_fst l

theorem build_vals {α β γ : Type} (l : List α) (f : Nat × α → β) (g : β → γ) (k : α → γ)
    (h : ∀ p, g (f p) = k p.2) : (l.enum.map f).map g = l.map k := by
  rw [List.map_map]
  calc l.enum.map (g ∘ f) = l.enum.map (fun p => k p.2) := List.map_congr_left (fun p _ => h p)
    _ = (l.enum.map Prod.snd).map k := by rw [List.map_map]; rfl
    _ = l.map k := by rw [List.enum_map_snd]

theorem build_pairwise {α β : Type} (l : List α) (f : Nat × α → β)
    {R : α → α → Prop} {S : β → β → Prop}
    (hf : ∀ p q : Nat × α, R p.2 q.2 → S (f p) (f q)) (h : l.Pairwise R) :
    (l.enum.map f).Pairwise S := by
  apply List.pairwise_map.mpr
  have h2 : l.enum.Pairwise (fun p q => R p.2 q.2) := by
    have h3 : (l.enum.map Prod.snd).Pairwise R := by rwa [List.enum_map_snd]
    exact List.pairwise_map.mp h3
  exact h2.imp (fun hab => hf _ _ hab)

theorem mem_enum_of_mem {α : Type} {l : List α} {x : α} (hx : x ∈ l) :
    ∃ p ∈ l.enum, p.2 = x := by
  have h : x ∈ l.enum.map Prod.snd := by rwa [List.enum_map_snd]
  rcases List.mem_map.mp h with ⟨p, hp, he⟩
  exact ⟨p, hp, he⟩

theorem find?_key_eq_some {α β : Type} [DecidableEq β] (key : α → β) {l : List α} {a : α}
    (hnd : (l.map key).Nodup) (ha : a ∈ l) :
    l.find? (fun x => decide (key x = key a)) = some a := by
  induction l with
  | nil => cases ha
  | cons b t ih =>
    rw [List.map_cons, List.nodup_cons] at hnd
    rcases List.mem_cons.mp ha with rfl | hat
    · exact List.find?_cons_of_pos _ (by simp)
    · rw [List.find?_cons_of_neg, ih hnd.2 hat]
      have hne : key b ≠ key a := fun e => hnd.1 (e ▸ List.mem_map_of_mem key hat)
      simpa using hne

theorem find?_key_eq_none {α β : Type} [DecidableEq β] (key : α → β) {l : List α} {k : β}
    (h : ∀ x ∈ l, key x ≠ k) : l.find? (fun x => decide (key x = k)) = none := by
  rw [List.find?_eq_none]
  intro x hx
  simpa using h x hx

theorem find?_groupAgg {κ ν : Type} [DecidableEq κ] {keys : List κ} (f : κ → ν) {k : κ}
    (hnd : keys.Nodup) (hk : k ∈ keys) :
    ((keys.map (fun x => (x, f x))).find? (fun g => decide (g.1 = k))) = some (k, f k) := by
  induction keys with
  | nil => cases hk
  | cons b t ih =>
    rw [List.nodup_cons] at hnd
    rcases List.mem_cons.mp hk with rfl | hkt
    · exact List.find?_cons_of_pos _ (by simp)
    · rw [List.map_cons, List.find?_cons_of_neg, ih hnd.2 hkt]
      have hne : b ≠ k := fun e => hnd.1 (e ▸ hkt)
      simpa using hne

theorem find?_groupAgg_none {κ ν : Type} [DecidableEq κ] {keys : List κ} (f : κ → ν) {k : κ}
    (hk : k ∉ keys) :
    ((keys.map (fun x => (x, f x))).find? (fun g => decide (g.1 = k))) = none := by
  rw [List.find?_eq_none]
  rintro ⟨k', v⟩ hmem
  rcases List.mem_map.mp hmem with ⟨x, hx, he⟩
  cases he
  intro e
  rw [decide_eq_true_eq] at e
  exact hk (e ▸ hx)

theorem mem_groupKeys {α κ : Type} [DecidableEq κ] (key : α → κ) (l : List α) (k : κ) :
    k ∈ groupKeys key l ↔ ∃ a ∈ l, key a = k := by
  unfold groupKeys
  rw [List.mem_dedup, List.mem_map]

theorem groupKeys_nodup {α κ : Type} [DecidableEq κ] (key : α → κ) (l : List α) :
    (groupKeys key l).Nodup := List.nodup_dedup _

theorem optNatLt_irrefl (a : Option Nat) : ¬ optNatLt a a := by
  cases a with
  | none => exact fun h => h
  | some x => exact fun h => Nat.lt_irrefl x h

/-! Invariants of the freshly built tables. -/

theorem make_problem_df_spec {raw : List RawRow} {df : List ProblemRow}
    (h : make_problem_df raw = some df) :
    df.map (fun r => r.id) = List.range df.length ∧
    df.Pairwise (fun a b => nameLe a.name b.name) ∧
    (df.map (fun r => r.name)).Nodup := by
  rcases assertUnique_some h with ⟨rfl, hnd⟩
  refine ⟨?_, ?_, hnd⟩
  · exact build_ids_range _ _ _ (fun p => rfl)
  · exact build_pairwise _ _ (fun p q hpq => hpq) (List.sorted_insertionSort _ _)

theorem make_flatzinc_df_spec {raw : List RawRow} {pdf : List ProblemRow}
    {df : List FlatzincRow} (h : make_flatzinc_df raw pdf = some df) :
    df.map (fun r => r.id) = List.range df.length ∧
    df.Pairwise (fun a b => fzKeyLe (a.problem_id, a.name) (b.problem_id, b.name)) ∧
    (df.map (fun r => (r.problem_id, r.name))).Nodup := by
  rcases Option.map_eq_some'.mp h with ⟨checked, hc, hdf⟩
  rcases assertUnique_some hc with ⟨rfl, hnd⟩
  subst hdf
  refine ⟨?_, ?_, ?_⟩
  · exact build_ids_range _ _ _ (fun p => rfl)
  · exact build_pairwise _ _ (fun p q hpq => hpq) (List.sorted_insertionSort _ _)
  · have hv : ((fzSorted raw pdf).enum.map (fun p =>
        ({ id := p.1, name := p.2.2, problem_id := p.2.1 } : FlatzincRow))).map
        (fun r => (r.problem_id, r.name)) = (fzSorted raw pdf).map (fun q => q) :=
      build_vals _ _ _ _ (fun p => rfl)
    rw [hv]
    exact hnd

theorem make_configuration_df_some {raw : List RawRow} {log : List String}
    {df : List ConfigurationRow} (h : make_configuration_df raw = (log, some df)) :
    df = configBuilt raw ∧ configBad raw = [] ∧ log = configMsgs raw := by
  unfold make_configuration_df at h
  split at h
  · rw [Prod.mk.injEq] at h
    cases h.2
  · rw [Prod.mk.injEq] at h
    exact ⟨(Option.some.inj h.2).symm, by assumption, h.1.symm⟩

theorem snd_mem_of_mem_enum {α : Type} {l : List α} {p : Nat × α} (hp : p ∈ l.enum) :
    p.2 ∈ l := by
  have h : p.2 ∈ l.enum.map Prod.snd := List.mem_map_of_mem Prod.snd hp
  rwa [List.enum_map_snd] at h

theorem make_configuration_df_spec {raw : List RawRow} {log : List String}
    {df : List ConfigurationRow} (h : make_configuration_df raw = (log, some df)) :
    df.map (fun r => r.id) = List.range df.length ∧
    df.Pairwise (fun a b => nameLe a.name b.name) ∧
    (df.map (fun r => r.name)).Nodup ∧
    (∀ r ∈ df, (r.var_order, r.value_order, r.restart) = splitExact2 r.name) := by
  rcases make_configuration_df_some h with ⟨rfl, _, _⟩
  refine ⟨?_, ?_, ?_, ?_⟩
  · exact build_ids_range _ _ _ (fun p => rfl)
  · exact build_pairwise _ _ (fun p q hpq => hpq) (List.sorted_insertionSort _ _)
  · have hv : (configBuilt raw).map (fun r => r.name)
        = (List.insertionSort cfgKeyLe (configParsed raw)).map (fun q => q.1) :=
      build_vals _ _ _ _ (fun p => rfl)
    rw [hv]
    have hperm : List.Perm
        ((List.insertionSort cfgKeyLe (configParsed raw)).map (fun q => q.1))
        ((configParsed raw).map (fun q => q.1)) :=
      (List.perm_insertionSort cfgKeyLe (configParsed raw)).map _
    rw [hperm.nodup_iff]
    have he : (configParsed raw).map (fun q => q.1)
        = (raw.map (fun r => r.configuration)).dedup := by
      unfold configParsed
      rw [List.map_map]
      exact List.map_id' _
    rw [he]
    exact List.nodup_dedup _
  · intro r hr
    rcases List.mem_map.mp hr with ⟨p, hp, he⟩
    have hmem : p.2 ∈ configParsed raw :=
      (List.perm_insertionSort cfgKeyLe (configParsed raw)).mem_iff.mp (snd_mem_of_mem_enum hp)
    rcases List.mem_map.mp hmem with ⟨n, _, he2⟩
    subst he
    show p.2.2 = splitExact2 p.2.1
    rw [← he2]

theorem make_run_df_spec {raw : List RawRow} {pdf : List ProblemRow}
    {fdf : List FlatzincRow} {cdf : List ConfigurationRow} {df : List RunRow}
    (h : make_run_df raw pdf fdf cdf = some df) :
    df.map (fun r => r.id) = List.range df.length ∧
    df.Pairwise (fun a b =>
      runKeyLe (a.flatzinc_id, a.configuration_id) (b.flatzinc_id, b.configuration_id)) ∧
    (df.map (fun r => (r.flatzinc_id, r.configuration_id))).Nodup := by
  rcases Option.map_eq_some'.mp h with ⟨checked, hc, hdf⟩
  rcases assertUnique_some hc with ⟨rfl, hnd⟩
  subst hdf
  refine ⟨?_, ?_, ?_⟩
  · exact build_ids_range _ _ _ (fun p => rfl)
  · exact build_pairwise _ _ (fun p q hpq => hpq) (List.sorted_insertionSort _ _)
  · have hv : ((List.insertionSort runKeyLe
        (runPairs raw pdf fdf cdf)).enum.map (fun p =>
          ({ id := p.1, flatzinc_id := p.2.1, configuration_id := p.2.2 } : RunRow))).map
        (fun r => (r.flatzinc_id, r.configuration_id))
        = (List.insertionSort runKeyLe (runPairs raw pdf fdf cdf)).map (fun q => q) :=
      build_vals _ _ _ _ (fun p => rfl)
    rw [hv]
    have hperm : List.Perm
        ((List.insertionSort runKeyLe (runPairs raw pdf fdf cdf)).map (fun q => q))
        ((runPairs raw pdf fdf cdf).map (fun q => q)) :=
      (List.perm_insertionSort runKeyLe (runPairs raw pdf fdf cdf)).map _
    rw [hperm.nodup_iff]
    exact hnd

theorem make_event_df_spec {raw : List RawRow} {pdf : List ProblemRow}
    {fdf : List FlatzincRow} {cdf : List ConfigurationRow} {rdf : List RunRow}
    {log : List String} {evs : List EventRow}
    (h : make_event_df raw pdf fdf cdf rdf = (log, evs)) :
    log = [] ∧
    evs.map (fun e => e.id) = List.range evs.length ∧
    evs.Pairwise (fun a b => a.run_id = b.run_id → a.time ≤ b.time) := by
  unfold make_event_df at h
  rw [Prod.mk.injEq] at h
  rcases h with ⟨hl, he⟩
  subst he
  refine ⟨hl.symm, ?_, ?_⟩
  · exact build_ids_range _ _ _ (fun p => rfl)
  · refine build_pairwise _ _ (fun p q hpq => ?_)
      (List.sorted_insertionSort eventKeyLe _)
    intro hrun
    have hrun2 : p.2.1 = q.2.1 := hrun
    rcases hpq with hlt | ⟨_, hle⟩
    · rw [hrun2] at hlt
      exact absurd hlt (optNatLt_irrefl _)
    · exact hle

/-- C3: in every freshly built table, each dimension table (Problem,
Instance, Configuration) carries dense 0..n-1 ids assigned by an ascending
sort on its declared key (Problem and Configuration by name, Instance by
(problem id, name)) with its natural key unique, and the Run table carries a
unique (instance id, configuration id) pair per row with ids assigned by the
ascending (instance id, configuration id) sort; the uniqueness conjuncts
hold for arbitrary builder inputs exactly because duplication trips the
fatal assert (a successful build implies duplicate-free keys). -/
theorem c3_fresh_table_invariants :
    (∀ (raw : List RawRow) (df : List ProblemRow), make_problem_df raw = some df →
      df.map (fun r => r.id) = List.range df.length ∧
      df.Pairwise (fun a b => nameLe a.name b.name) ∧
      (df.map (fun r => r.name)).Nodup) ∧
    (∀ (raw : List RawRow) (pdf : List ProblemRow) (df : List FlatzincRow),
      make_flatzinc_df raw pdf = some df →
      df.map (fun r => r.id) = List.range df.length ∧
      df.Pairwise (fun a b => fzKeyLe (a.problem_id, a.name) (b.problem_id, b.name)) ∧
      (df.map (fun r => (r.problem_id, r.name))).Nodup) ∧
    (∀ (raw : List RawRow) (log : List String) (df : List ConfigurationRow),
      make_configuration_df raw = (log, some df) →
      df.map (fun r => r.id) = List.range df.length ∧
      df.Pairwise (fun a b => nameLe a.name b.name) ∧
      (df.map (fun r => r.name)).Nodup) ∧
    (∀ (raw : List RawRow) (pdf : List ProblemRow) (fdf : List FlatzincRow)
      (cdf : List ConfigurationRow) (df : List RunRow),
      make_run_df raw pdf fdf cdf = some df →
      df.map (fun r => r.id) = List.range df.length ∧
      df.Pairwise (fun a b =>
        runKeyLe (a.flatzinc_id, a.configuration_id) (b.flatzinc_id, b.configuration_id)) ∧
      (df.map (fun r => (r.flatzinc_id, r.configuration_id))).Nodup) := by
  refine ⟨fun _ _ h => make_problem_df_spec h,
    fun _ _ _ h => make_flatzinc_df_spec h,
    fun _ _ _ h => ?_,
    fun _ _ _ _ _ h => make_run_df_spec h⟩
  have hs := make_configuration_df_spec h
  exact ⟨hs.1, hs.2.1, hs.2.2.1⟩

/-- Witness for C3: the invariants instantiated on the end-to-end scenario,
whose builders evaluate to the expected concrete tables. -/
theorem c3_fresh_table_invariants_witness :
    make_problem_df rawEndToEnd = some problemOnlyP ∧
    (problemOnlyP.map (fun r => r.id) = List.range problemOnlyP.length ∧
      (problemOnlyP.map (fun r => r.name)).Nodup) ∧
    make_run_df rawEndToEnd problemOnlyP flatzincOnlyI configurationTableEE
      = some runTableEE ∧
    (runTableEE.map (fun r => r.id) = List.range runTableEE.length ∧
      (runTableEE.map (fun r => (r.flatzinc_id, r.configuration_id))).Nodup) := by
  have h1 : make_problem_df rawEndToEnd = some problemOnlyP := by decide
  have h4 : make_run_df rawEndToEnd problemOnlyP flatzincOnlyI configurationTableEE
      = some runTableEE := by decide
  have s1 := c3_fresh_table_invariants.1 rawEndToEnd problemOnlyP h1
  have s4 := c3_fresh_table_invariants.2.2.2 rawEndToEnd problemOnlyP flatzincOnlyI
    configurationTableEE runTableEE h4
  exact ⟨h1, ⟨s1.1, s1.2.2⟩, h4, ⟨s4.1, s4.2.2⟩⟩

/-- C4: in every freshly built event table, ids are a dense 0-based sequence
assigned after sorting by (run id, time), and for any two events of the same
run the one with the smaller id comes first in the table, hence has a time
less than or equal to the other's. -/
theorem c4_event_order :
    ∀ (raw : List RawRow) (pdf : List ProblemRow) (fdf : List FlatzincRow)
      (cdf : List ConfigurationRow) (rdf : List RunRow) (log : List String)
      (evs : List EventRow), make_event_df raw pdf fdf cdf rdf = (log, evs) →
      evs.map (fun e => e.id) = List.range evs.length ∧
      evs.Pairwise (fun a b => a.run_id = b.run_id → a.time ≤ b.time) :=
  fun _ _ _ _ _ _ _ h => ⟨(make_event_df_spec h).2.1, (make_event_df_spec h).2.2⟩

/-- Witness for C4: the event-order invariant instantiated on the end-to-end
scenario's event table. -/
theorem c4_event_order_witness :
    (make_event_df rawEndToEnd problemOnlyP flatzincOnlyI configurationTableEE
        runTableEE).2.map (fun e => e.id)
      = List.range (make_event_df rawEndToEnd problemOnlyP flatzincOnlyI
        configurationTableEE runTableEE).2.length ∧
    (make_event_df rawEndToEnd problemOnlyP flatzincOnlyI configurationTableEE
        runTableEE).2.Pairwise (fun a b => a.run_id = b.run_id → a.time ≤ b.time) :=
  c4_event_order rawEndToEnd problemOnlyP flatzincOnlyI configurationTableEE runTableEE
    _ _ rfl

theorem make_configuration_df_fst (raw : List RawRow) :
    (make_configuration_df raw).1 = configMsgs raw := by
  unfold make_configuration_df
  cases hb : configBad raw <;> rfl

theorem make_configuration_df_none_iff (raw : List RawRow) :
    (make_configuration_df raw).2 = none ↔ configBad raw ≠ [] := by
  unfold make_configuration_df
  cases hb : configBad raw <;> simp

theorem splitExact2_restart_none_iff (n : String) :
    (splitExact2 n).2.2 = none ↔ (splitChar '_' n.data).length < 3 := by
  unfold splitExact2
  rw [List.getElem?_eq_none_iff, List.length_map]
  omega

/-- C5 counterexample: the configuration name `a_b_c_d` splits into four
underscore-delimited parts, not exactly 3, yet the configuration builder
succeeds without printing anything: the row is accepted with
`var_order = a`, `value_order = b`, `restart = c` (the fourth fragment is
discarded by `split_exact("_", 2)`).  This refutes the claimed
"fails ... if and only if some configuration name does not split into
exactly 3 underscore-delimited parts". -/
theorem c5_counterexample :
    (splitChar '_' ("a_b_c_d").data).length = 4 ∧
    make_configuration_df rawFourParts =
      ([], some [{ id := 0, name := "a_b_c_d", var_order := some "a",
                   value_order := some "b", restart := some "c" }]) := by
  constructor
  · decide
  · decide

/-- C5 amended: building the Configuration table fails fatally, after
printing a descriptive per-row message naming every malformed configuration,
if and only if some distinct configuration name splits into fewer than 3
underscore-delimited parts; names with 3 or more parts are accepted, their
row fields being the first three fragments produced by
`split_exact("_", 2)` (the remainder is discarded); in particular
`onlytwo_parts` fails with an error naming that configuration. -/
theorem c5_configuration_validation :
    (∀ raw : List RawRow,
      ((make_configuration_df raw).2 = none ↔
        ∃ n ∈ (raw.map (fun r => r.configuration)).dedup,
          (splitChar '_' n.data).length < 3) ∧
      (∀ n ∈ (raw.map (fun r => r.configuration)).dedup,
        (splitChar '_' n.data).length < 3 →
        ("configuration '" ++ n ++ "' is not of the form varorder_valueorder_restart")
          ∈ (make_configuration_df raw).1) ∧
      (∀ log df, make_configuration_df raw = (log, some df) →
        ∀ r ∈ df, (r.var_order, r.value_order, r.restart) = splitExact2 r.name ∧
          r.restart ≠ none)) ∧
    make_configuration_df rawOnlyTwo =
      (["configuration 'onlytwo_parts' is not of the form varorder_valueorder_restart"],
        none) := by
  constructor
  · intro raw
    refine ⟨?_, ?_, ?_⟩
    · rw [make_configuration_df_none_iff]
      constructor
      · intro hne
        rcases List.exists_mem_of_ne_nil _ hne with ⟨p, hp⟩
        rcases List.mem_filter.mp hp with ⟨hpar, hnone⟩
        rcases List.mem_map.mp hpar with ⟨n, hn, he⟩
        subst he
        rw [decide_eq_true_eq] at hnone
        exact ⟨n, hn, (splitExact2_restart_none_iff n).mp hnone⟩
      · rintro ⟨n, hn, hlt⟩ hnil
        have hmem : (n, splitExact2 n) ∈ configBad raw := by
          apply List.mem_filter.mpr
          refine ⟨List.mem_map_of_mem _ hn, ?_⟩
          rw [decide_eq_true_eq]
          exact (splitExact2_restart_none_iff n).mpr hlt
        rw [hnil] at hmem
        cases hmem
    · intro n hn hlt
      rw [make_configuration_df_fst]
      have hmem : (n, splitExact2 n) ∈ configBad raw := by
        apply List.mem_filter.mpr
        refine ⟨List.mem_map_of_mem _ hn, ?_⟩
        rw [decide_eq_true_eq]
        exact (splitExact2_restart_none_iff n).mpr hlt
      exact List.mem_map_of_mem _ hmem
    · intro log df h r hr
      refine ⟨((make_configuration_df_spec h).2.2.2 r hr), ?_⟩
      rcases make_configuration_df_some h with ⟨hdf, hbad, _⟩
      subst hdf
      rcases List.mem_map.mp hr with ⟨p, hp, he⟩
      have hmem : p.2 ∈ configParsed raw :=
        (List.perm_insertionSort cfgKeyLe (configParsed raw)).mem_iff.mp
          (snd_mem_of_mem_enum hp)
      subst he
      intro hnone
      have hbadmem : p.2 ∈ configBad raw := by
        apply List.mem_filter.mpr
        refine ⟨hmem, ?_⟩
        rw [decide_eq_true_eq]
        exact hnone
      rw [hbad] at hbadmem
      cases hbadmem
  · decide

/-- Witness for C5 amended: the characterization instantiated on the raw
table whose single configuration is `onlytwo_parts`. -/
theorem c5_configuration_validation_witness :
    ((make_configuration_df rawOnlyTwo).2 = none ↔
      ∃ n ∈ (rawOnlyTwo.map (fun r => r.configuration)).dedup,
        (splitChar '_' n.data).length < 3) ∧
    (make_configuration_df rawOnlyTwo).2 = none ∧
    (splitChar '_' ("onlytwo_parts").data).length < 3 :=
  ⟨(c5_configuration_validation.1 rawOnlyTwo).1, by decide, by decide⟩

/-- C9 counterexample: feeding the event builder a raw row whose triple
resolves to no run (the run table is empty) keeps the row with a null run
reference, but the builder's stderr output is empty - no data-integrity
warning is surfaced to the caller - refuting the claimed warning. -/
theorem c9_counterexample :
    make_event_df rawOnlyTwo problemOnlyP flatzincOnlyI [] [] =
      ([], [{ id := 0, run_id := none, type := EventType.new_solution,
              num_solutions := 1, objective := 1, time := 0, num_decisions := 0,
              num_conflicts := 0, num_dom_updates := 0, num_restarts := 0 }]) := by
  decide

/-- C9 amended: every raw row whose (configuration, problem, flatzinc)
triple fails to resolve to a run is kept in the event table with a null run
reference rather than dropped, and the event builder neither aborts nor
emits any warning (its stderr output is always empty). -/
theorem c9_event_join_miss :
    ∀ (raw : List RawRow) (pdf : List ProblemRow) (fdf : List FlatzincRow)
      (cdf : List ConfigurationRow) (rdf : List RunRow),
      (make_event_df raw pdf fdf cdf rdf).1 = [] ∧
      (make_event_df raw pdf fdf cdf rdf).2.length = raw.length ∧
      (∀ row ∈ raw,
        (idJoin pdf fdf cdf rdf).find? (fun i =>
          decide (i.configuration_name = some row.configuration ∧
            i.problem_name = some row.problem ∧ i.flatzinc_name = some row.flatzinc))
          = none →
        ∃ e ∈ (make_event_df raw pdf fdf cdf rdf).2, e.run_id = none ∧
          e.type = row.type ∧ e.num_solutions = row.num_solutions ∧
          e.objective = row.objective ∧ e.time = row.time ∧
          e.num_decisions = row.num_decisions ∧ e.num_conflicts = row.num_conflicts ∧
          e.num_dom_updates = row.num_dom_updates ∧ e.num_restarts = row.num_restarts) := by
  intro raw pdf fdf cdf rdf
  refine ⟨rfl, ?_, ?_⟩
  · show ((List.insertionSort eventKeyLe
      (eventPre raw pdf fdf cdf rdf)).enum.map eventRowOf).length = raw.length
    rw [List.length_map, List.enum_length,
      (List.perm_insertionSort eventKeyLe _).length_eq]
    unfold eventPre
    rw [List.length_map]
  · intro row hrow hmiss
    have hpre : ((none : Option Nat), row) ∈ eventPre raw pdf fdf cdf rdf := by
      have h2 := List.mem_map_of_mem (fun row : RawRow =>
        (((idJoin pdf fdf cdf rdf).find? (fun i =>
          decide (i.configuration_name = some row.configuration ∧
            i.problem_name = some row.problem ∧ i.flatzinc_name = some row.flatzinc))).map
          (fun i => i.run_id), row)) hrow
      dsimp only [] at h2
      rw [hmiss] at h2
      exact h2
    have hsorted : ((none : Option Nat), row) ∈
        List.insertionSort eventKeyLe (eventPre raw pdf fdf cdf rdf) :=
      (List.perm_insertionSort eventKeyLe _).mem_iff.mpr hpre
    rcases mem_enum_of_mem hsorted with ⟨p, hp, he⟩
    refine ⟨eventRowOf p, List.mem_map_of_mem eventRowOf hp, ?_⟩
    rw [show eventRowOf p = eventRowOf (p.1, (none, row)) by rw [← he]]
    exact ⟨rfl, rfl, rfl, rfl, rfl, rfl, rfl, rfl, rfl⟩

/-- Witness for C9 amended: instantiated on a raw table and an empty run
table so that the triple cannot resolve. -/
theorem c9_event_join_miss_witness :
    (make_event_df rawOnlyTwo problemOnlyP flatzincOnlyI [] []).1 = [] ∧
    (∃ e ∈ (make_event_df rawOnlyTwo problemOnlyP flatzincOnlyI [] []).2,
      e.run_id = none ∧ e.type = EventType.new_solution ∧ e.num_solutions = 1 ∧
      e.objective = 1 ∧ e.time = 0 ∧ e.num_decisions = 0 ∧ e.num_conflicts = 0 ∧
      e.num_dom_updates = 0 ∧ e.num_restarts = 0) := by
  have h := c9_event_join_miss rawOnlyTwo problemOnlyP flatzincOnlyI [] []
  refine ⟨h.1, ?_⟩
  exact h.2.2 (mkRaw ("onlytwo_parts") ("P") ("I") EventType.new_solution 1 1 0 0)
    (by decide) (by decide)

theorem assertIdsSorted_some {df res : List RunRow} (h : assertIdsSorted df = some res) :
    res = df ∧ (df.map (fun r => r.id)).Pairwise (fun a b => a ≤ b) := by
  unfold assertIdsSorted at h
  split at h
  · exact ⟨(Option.some.inj h).symm, by assumption⟩
  · cases h

theorem runObjectives_nil_of_not_mem (db : Database) (k : Option Nat)
    (hk : k ∉ groupKeys (fun e => e.run_id) db.event_df) : db.runObjectives k = [] := by
  unfold Database.runObjectives keyRows
  rw [List.map_eq_nil_iff, List.filter_eq_nil_iff]
  intro e he
  rw [decide_eq_true_eq]
  intro heq
  exact hk ((mem_groupKeys _ _ _).mpr ⟨e, he, heq⟩)

theorem boundedRuns_mem_spec (db : Database) {x : RunRow × Option ProblemType}
    (hx : x ∈ db.boundedRuns) :
    ∃ r ∈ db.run_df, ∃ fz, db.flatzinc_df.find? (fun f => decide (f.id = r.flatzinc_id))
        = some fz ∧
      x.2 = fz.problem_type ∧
      x.1.id = r.id ∧ x.1.flatzinc_id = r.flatzinc_id ∧
      x.1.configuration_id = r.configuration_id ∧
      x.1.objective_lb = (db.runObjectives (some r.id)).min? ∧
      x.1.objective_ub = (db.runObjectives (some r.id)).max? ∧
      x.1.objective_bb = whenMinimize fz.problem_type x.1.objective_lb x.1.objective_ub ∧
      x.1.objective_wb = whenMinimize fz.problem_type x.1.objective_ub x.1.objective_lb := by
  unfold Database.boundedRuns at hx
  rcases List.mem_filterMap.mp hx with ⟨r, hr, hF⟩
  dsimp only [] at hF
  rcases Option.map_eq_some'.mp hF with ⟨fz, hfind, hx2⟩
  refine ⟨r, hr, fz, hfind, ?_⟩
  by_cases hk : (some r.id) ∈ groupKeys (fun e => e.run_id) db.event_df
  · have hfg : db.runObjectiveBounds.find? (fun g => decide (g.1 = some r.id)) =
        some (some r.id, (db.runObjectives (some r.id)).min?,
          (db.runObjectives (some r.id)).max?) := by
      unfold Database.runObjectiveBounds
      exact find?_groupAgg
        (fun k => ((db.runObjectives k).min?, (db.runObjectives k).max?))
        (groupKeys_nodup _ _) hk
    rw [hfg] at hx2
    subst hx2
    exact ⟨rfl, rfl, rfl, rfl, rfl, rfl, rfl, rfl⟩
  · have hfg : db.runObjectiveBounds.find? (fun g => decide (g.1 = some r.id)) = none := by
      unfold Database.runObjectiveBounds
      exact find?_groupAgg_none
        (fun k => ((db.runObjectives k).min?, (db.runObjectives k).max?)) hk
    rw [hfg] at hx2
    subst hx2
    rw [runObjectives_nil_of_not_mem db _ hk]
    exact ⟨rfl, rfl, rfl, rfl, rfl, rfl, rfl, rfl⟩

theorem find?_groupAgg_fst {κ₂ ν : Type} [DecidableEq κ₂] {keys : List (Nat × κ₂)}
    (f : Nat × κ₂ → ν) {fid : Nat}
    (hcons : ∀ k1 ∈ keys, ∀ k2 ∈ keys, k1.1 = k2.1 → k1 = k2)
    {k₀ : Nat × κ₂} (hk : k₀ ∈ keys) (hfid : k₀.1 = fid) :
    (keys.map (fun k => (k, f k))).find? (fun g => decide (g.1.1 = fid))
      = some (k₀, f k₀) := by
  induction keys with
  | nil => cases hk
  | cons b t ih =>
    by_cases hb : b.1 = fid
    · have hbk : b = k₀ := hcons b (List.mem_cons_self b t) k₀ hk (by rw [hb, hfid])
      subst hbk
      exact List.find?_cons_of_pos _ (by simpa using hb)
    · rcases List.mem_cons.mp hk with rfl | hkt
      · exact absurd hfid hb
      · rw [List.map_cons, List.find?_cons_of_neg _ (by simpa using hb)]
        exact ih (fun k1 h1 k2 h2 he =>
          hcons k1 (List.mem_cons_of_mem b h1) k2 (List.mem_cons_of_mem b h2) he) hkt

theorem find?_groupAgg_fst_none {κ₂ ν : Type} [DecidableEq κ₂] {keys : List (Nat × κ₂)}
    (f : Nat × κ₂ → ν) {fid : Nat} (h : ∀ k ∈ keys, k.1 ≠ fid) :
    (keys.map (fun k => (k, f k))).find? (fun g => decide (g.1.1 = fid)) = none := by
  rw [List.find?_eq_none]
  intro g hmem
  rcases List.mem_map.mp hmem with ⟨x, hx, he⟩
  subst he
  simpa using h x hx

theorem add_objective_bounds_some {db db' : Database} (h : db.add_objective_bounds = some db') :
    db'.run_df = db.boundedRuns.map (fun x => x.1) ∧
    db'.flatzinc_df = db.flatzinc_df.map (fun fz =>
      let g := db.flatzincObjectiveBounds.find? (fun g => decide (g.1.1 = fz.id))
      { fz with
          objective_lb := g.bind (fun g => g.2.1)
          objective_ub := g.bind (fun g => g.2.2.1)
          objective_bb := g.bind (fun g => g.2.2.2.1)
          objective_wb := g.bind (fun g => g.2.2.2.2) }) ∧
    db'.event_df = db.event_df ∧ db'.problem_df = db.problem_df := by
  unfold Database.add_objective_bounds at h
  rcases Option.map_eq_some'.mp h with ⟨run3, hassert, hdb'⟩
  rcases assertIdsSorted_some hassert with ⟨hrun3, _⟩
  subst hrun3
  subst hdb'
  exact ⟨rfl, rfl, rfl, rfl⟩

theorem add_objective_bounds_run_spec {db db' : Database}
    (h : db.add_objective_bounds = some db') :
    ∀ r ∈ db'.run_df,
      r.objective_lb = (db.runObjectives (some r.id)).min? ∧
      r.objective_ub = (db.runObjectives (some r.id)).max? ∧
      ∃ fz, db.flatzinc_df.find? (fun f => decide (f.id = r.flatzinc_id)) = some fz ∧
        (fz.problem_type = some ProblemType.minimize →
          r.objective_bb = r.objective_lb ∧ r.objective_wb = r.objective_ub) ∧
        (fz.problem_type = some ProblemType.maximize →
          r.objective_bb = r.objective_ub ∧ r.objective_wb = r.objective_lb) := by
  intro r hr
  rw [(add_objective_bounds_some h).1] at hr
  rcases List.mem_map.mp hr with ⟨x, hx, he⟩
  subst he
  rcases boundedRuns_mem_spec db hx with
    ⟨r0, _, fz, hfind, _, hid, hfid, _, hlb, hub, hbb, hwb⟩
  refine ⟨by rw [hid]; exact hlb, by rw [hid]; exact hub, fz, by rw [hfid]; exact hfind,
    ?_, ?_⟩
  · intro hmin
    rw [hmin] at hbb hwb
    exact ⟨hbb, hwb⟩
  · intro hmax
    rw [hmax] at hbb hwb
    exact ⟨hbb, hwb⟩

theorem boundedRuns_type_consistent (db : Database) :
    ∀ x ∈ db.boundedRuns, ∀ y ∈ db.boundedRuns,
      x.1.flatzinc_id = y.1.flatzinc_id → x.2 = y.2 := by
  intro x hx y hy he
  rcases boundedRuns_mem_spec db hx with ⟨rx, _, fzx, hfx, htx, _, hfidx, _⟩
  rcases boundedRuns_mem_spec db hy with ⟨ry, _, fzy, hfy, hty, _, hfidy, _⟩
  rw [htx, hty]
  rw [← hfidx, he, hfidy] at hfx
  rw [hfx] at hfy
  rw [Option.some.inj hfy]

theorem filter_map_fst_filterMap {α β γ : Type} (l : List (α × β)) (p : α → Bool)
    (f : α → Option γ) :
    ((l.map (fun x => x.1)).filter p).filterMap f
      = (l.filter (fun x => p x.1)).filterMap (fun x => f x.1) := by
  rw [List.filter_map, List.filterMap_map]
  rfl

theorem add_objective_bounds_fz_spec {db db' : Database}
    (hnd : (db.flatzinc_df.map (fun f => f.id)).Nodup)
    (h : db.add_objective_bounds = some db') :
    ∀ fz2 ∈ db'.flatzinc_df,
      fz2.objective_lb = ((db'.run_df.filter
          (fun r => decide (r.flatzinc_id = fz2.id))).filterMap
          (fun r => r.objective_lb)).min? ∧
      fz2.objective_ub = ((db'.run_df.filter
          (fun r => decide (r.flatzinc_id = fz2.id))).filterMap
          (fun r => r.objective_ub)).max? ∧
      (fz2.problem_type = some ProblemType.minimize →
        fz2.objective_bb = fz2.objective_lb ∧ fz2.objective_wb = fz2.objective_ub) ∧
      (fz2.problem_type = some ProblemType.maximize →
        fz2.objective_bb = fz2.objective_ub ∧ fz2.objective_wb = fz2.objective_lb) := by
  intro fz2 hmem
  rw [(add_objective_bounds_some h).2.1] at hmem
  rw [(add_objective_bounds_some h).1]
  rcases List.mem_map.mp hmem with ⟨fz, hfz, he⟩
  subst he
  dsimp only []
  by_cases hex : ∃ x ∈ db.boundedRuns, x.1.flatzinc_id = fz.id
  · obtain ⟨x₀, hx₀, hfid₀⟩ := hex
    have hcons : ∀ k1 ∈ groupKeys (fun x => (x.1.flatzinc_id, x.2)) db.boundedRuns,
        ∀ k2 ∈ groupKeys (fun x => (x.1.flatzinc_id, x.2)) db.boundedRuns,
        k1.1 = k2.1 → k1 = k2 := by
      intro k1 h1 k2 h2 he12
      rcases (mem_groupKeys _ _ _).mp h1 with ⟨y1, hy1, hk1⟩
      rcases (mem_groupKeys _ _ _).mp h2 with ⟨y2, hy2, hk2⟩
      subst hk1
      subst hk2
      dsimp only [] at he12 ⊢
      rw [Prod.mk.injEq]
      exact ⟨he12, boundedRuns_type_consistent db y1 hy1 y2 hy2 he12⟩
    have hkmem : ((fz.id, x₀.2) : Nat × Option ProblemType) ∈
        groupKeys (fun x => (x.1.flatzinc_id, x.2)) db.boundedRuns :=
      (mem_groupKeys _ _ _).mpr ⟨x₀, hx₀, by rw [hfid₀]⟩
    have hfind : db.flatzincObjectiveBounds.find? (fun g => decide (g.1.1 = fz.id)) =
        some ((fz.id, x₀.2),
          fzBoundsOfGroup (fz.id, x₀.2)
            (keyRows (fun x => (x.1.flatzinc_id, x.2)) db.boundedRuns (fz.id, x₀.2))) := by
      unfold Database.flatzincObjectiveBounds
      exact find?_groupAgg_fst
        (fun key => fzBoundsOfGroup key
          (keyRows (fun x => (x.1.flatzinc_id, x.2)) db.boundedRuns key))
        hcons hkmem rfl
    have hgrp : keyRows (fun x => (x.1.flatzinc_id, x.2)) db.boundedRuns (fz.id, x₀.2)
        = db.boundedRuns.filter (fun x => decide (x.1.flatzinc_id = fz.id)) := by
      unfold keyRows
      apply List.filter_congr
      intro x hx
      rw [decide_eq_decide]
      constructor
      · intro hpair
        rw [Prod.mk.injEq] at hpair
        exact hpair.1
      · intro hfid
        rw [Prod.mk.injEq]
        have h1 : x.1.flatzinc_id = x₀.1.flatzinc_id := by rw [hfid, hfid₀]
        exact ⟨hfid, boundedRuns_type_consistent db x hx x₀ hx₀ h1⟩
    have htype : x₀.2 = fz.problem_type := by
      rcases boundedRuns_mem_spec db hx₀ with ⟨r, _, fzf, hfindf, ht, _, hfid, _⟩
      rw [← hfid, hfid₀] at hfindf
      have hfz2 : db.flatzinc_df.find? (fun f => decide (f.id = fz.id)) = some fz :=
        find?_key_eq_some (fun f => f.id) hnd hfz
      rw [hfindf] at hfz2
      rw [ht, Option.some.inj hfz2]
    rw [htype] at hfind hgrp
    refine ⟨?_, ?_, ?_, ?_⟩
    · rw [hfind, hgrp, filter_map_fst_filterMap]
      rfl
    · rw [hfind, hgrp, filter_map_fst_filterMap]
      rfl
    · intro hmin
      rw [hmin] at hfind
      rw [hfind]
      exact ⟨rfl, rfl⟩
    · intro hmax
      rw [hmax] at hfind
      rw [hfind]
      exact ⟨rfl, rfl⟩
  · have hfind : db.flatzincObjectiveBounds.find? (fun g => decide (g.1.1 = fz.id))
        = none := by
      unfold Database.flatzincObjectiveBounds
      apply find?_groupAgg_fst_none
      intro k hk
      rcases (mem_groupKeys _ _ _).mp hk with ⟨y, hy, hkey⟩
      subst hkey
      intro he
      exact hex ⟨y, hy, he⟩
    have hfe : db.boundedRuns.filter (fun x => decide (x.1.flatzinc_id = fz.id)) = [] := by
      rw [List.filter_eq_nil_iff]
      intro x hx
      rw [decide_eq_true_eq]
      exact fun he => hex ⟨x, hx, he⟩
    refine ⟨?_, ?_, ?_, ?_⟩
    · rw [hfind, filter_map_fst_filterMap, hfe]
      rfl
    · rw [hfind, filter_map_fst_filterMap, hfe]
      rfl
    · intro hmin
      rw [hfind]
      exact ⟨rfl, rfl⟩
    · intro hmax
      rw [hfind]
      exact ⟨rfl, rfl⟩

/-- C6: after the `add_objective_bounds` pass (with unique flatzinc ids, an
invariant of the built table), every run row has `objective_lb`/`objective_ub`
equal to the min/max objective over the run's events, `objective_bb = lb` and
`objective_wb = ub` when the joined instance's problem type is minimize and
the reverse when maximize; and every flatzinc (instance) row has
`objective_lb`/`objective_ub` equal to the min/max of its runs' lb/ub (nulls
ignored), with the instance-level bb/wb given by the same direction rule
applied to the aggregated lb/ub. -/
theorem c6_objective_bounds {db db' : Database}
    (hnd : (db.flatzinc_df.map (fun f => f.id)).Nodup)
    (h : db.add_objective_bounds = some db') :
    (∀ r ∈ db'.run_df,
      r.objective_lb = (db.runObjectives (some r.id)).min? ∧
      r.objective_ub = (db.runObjectives (some r.id)).max? ∧
      ∃ fz, db.flatzinc_df.find? (fun f => decide (f.id = r.flatzinc_id)) = some fz ∧
        (fz.problem_type = some ProblemType.minimize →
          r.objective_bb = r.objective_lb ∧ r.objective_wb = r.objective_ub) ∧
        (fz.problem_type = some ProblemType.maximize →
          r.objective_bb = r.objective_ub ∧ r.objective_wb = r.objective_lb)) ∧
    (∀ fz2 ∈ db'.flatzinc_df,
      fz2.objective_lb = ((db'.run_df.filter
          (fun r => decide (r.flatzinc_id = fz2.id))).filterMap
          (fun r => r.objective_lb)).min? ∧
      fz2.objective_ub = ((db'.run_df.filter
          (fun r => decide (r.flatzinc_id = fz2.id))).filterMap
          (fun r => r.objective_ub)).max? ∧
      (fz2.problem_type = some ProblemType.minimize →
        fz2.objective_bb = fz2.objective_lb ∧ fz2.objective_wb = fz2.objective_ub) ∧
      (fz2.problem_type = some ProblemType.maximize →
        fz2.objective_bb = fz2.objective_ub ∧ fz2.objective_wb = fz2.objective_lb)) :=
  ⟨add_objective_bounds_run_spec h, add_objective_bounds_fz_spec hnd h⟩

/-- Closed instantiation of `c6_objective_bounds` at the AUC scenario. -/
theorem c6_objective_bounds_witness :
    ((((typedDb rawAuc).flatzinc_df.map (fun f => f.id)).Nodup ∧
      (typedDb rawAuc).add_objective_bounds = some (boundedDb rawAuc))) ∧
    ((∀ r ∈ (boundedDb rawAuc).run_df,
        r.objective_lb = ((typedDb rawAuc).runObjectives (some r.id)).min? ∧
        r.objective_ub = ((typedDb rawAuc).runObjectives (some r.id)).max? ∧
        ∃ fz, (typedDb rawAuc).flatzinc_df.find?
            (fun f => decide (f.id = r.flatzinc_id)) = some fz ∧
          (fz.problem_type = some ProblemType.minimize →
            r.objective_bb = r.objective_lb ∧ r.objective_wb = r.objective_ub) ∧
          (fz.problem_type = some ProblemType.maximize →
            r.objective_bb = r.objective_ub ∧ r.objective_wb = r.objective_lb)) ∧
      (∀ fz2 ∈ (boundedDb rawAuc).flatzinc_df,
        fz2.objective_lb = (((boundedDb rawAuc).run_df.filter
            (fun r => decide (r.flatzinc_id = fz2.id))).filterMap
            (fun r => r.objective_lb)).min? ∧
        fz2.objective_ub = (((boundedDb rawAuc).run_df.filter
            (fun r => decide (r.flatzinc_id = fz2.id))).filterMap
            (fun r => r.objective_ub)).max? ∧
        (fz2.problem_type = some ProblemType.minimize →
          fz2.objective_bb = fz2.objective_lb ∧ fz2.objective_wb = fz2.objective_ub) ∧
        (fz2.problem_type = some ProblemType.maximize →
          fz2.objective_bb = fz2.objective_ub ∧ fz2.objective_wb = fz2.objective_lb))) :=
  ⟨⟨by decide, by rfl⟩, c6_objective_bounds (by decide) (by rfl)⟩

theorem optDiv_zero_num {y : Int} (hy : y ≠ 0) : optDiv (some 0) (some y) = some 0 := by
  show (if y = 0 then none else some (((0:Int):ℚ) / (y:ℚ))) = some 0
  rw [if_neg hy]
  norm_num

theorem optDiv_self {y : Int} (hy : y ≠ 0) : optDiv (some y) (some y) = some 1 := by
  show (if y = 0 then none else some ((y:ℚ) / (y:ℚ))) = some 1
  rw [if_neg hy, div_self (Int.cast_ne_zero.mpr hy)]

/-- C7: every run row of the output of `add_objective_score` comes from a run
row joined with its flatzinc (instance) row, and its `objective_score` is
`|run.bb - instance.bb| / (instance.ub - instance.lb)` under the
null-propagating and zero-denominator-to-null polars semantics; when the
instance range is nonzero, a run whose best bound equals the instance best
bound scores 0, and (with the instance bb/wb being its lb/ub in one of the
two orders) a run whose best bound equals the instance worst bound
scores 1. -/
theorem c7_objective_score (db : Database) :
    ∀ r2 ∈ db.add_objective_score.run_df,
      ∃ r ∈ db.run_df, ∃ fz,
        db.flatzinc_df.find? (fun f => decide (f.id = r.flatzinc_id)) = some fz ∧
        r2.objective_score =
          optDiv (optAbs (optSub r.objective_bb fz.objective_bb))
            (optSub fz.objective_ub fz.objective_lb) ∧
        (∀ a b x : Int, fz.objective_lb = some a → fz.objective_ub = some b → a ≠ b →
          r.objective_bb = some x → fz.objective_bb = some x →
          r2.objective_score = some 0) ∧
        (∀ a b : Int, fz.objective_lb = some a → fz.objective_ub = some b → a < b →
          (fz.objective_bb = some a ∧ fz.objective_wb = some b ∨
            fz.objective_bb = some b ∧ fz.objective_wb = some a) →
          r.objective_bb = fz.objective_wb →
          r2.objective_score = some 1) := by
  intro r2 hr2
  unfold Database.add_objective_score at hr2
  rcases List.mem_filterMap.mp hr2 with ⟨r, hr, hF⟩
  rcases Option.map_eq_some'.mp hF with ⟨fz, hfind, he⟩
  subst he
  refine ⟨r, hr, fz, hfind, rfl, ?_, ?_⟩
  · intro a b x hla hub hne hrbb hfbb
    show optDiv (optAbs (optSub r.objective_bb fz.objective_bb))
        (optSub fz.objective_ub fz.objective_lb) = some 0
    rw [hrbb, hfbb, hla, hub]
    show optDiv (some |x - x|) (some (b - a)) = some 0
    rw [sub_self, abs_zero]
    exact optDiv_zero_num (sub_ne_zero.mpr (Ne.symm hne))
  · intro a b hla hub hab hor hbw
    show optDiv (optAbs (optSub r.objective_bb fz.objective_bb))
        (optSub fz.objective_ub fz.objective_lb) = some 1
    rcases hor with ⟨hbbv, hwbv⟩ | ⟨hbbv, hwbv⟩
    · rw [hbw, hwbv, hbbv, hla, hub]
      show optDiv (some |b - a|) (some (b - a)) = some 1
      rw [abs_of_pos (by linarith : (0:ℤ) < b - a)]
      exact optDiv_self (sub_ne_zero.mpr hab.ne')
    · rw [hbw, hwbv, hbbv, hla, hub]
      show optDiv (some |a - b|) (some (b - a)) = some 1
      rw [abs_of_neg (by linarith : a - b < (0:ℤ)), neg_sub]
      exact optDiv_self (sub_ne_zero.mpr hab.ne')

/-- Closed instantiation of `c7_objective_score` at the AUC scenario: its
single run row, read back from the scored run table. -/
theorem c7_objective_score_witness :
    ∃ r ∈ (countedDb rawAuc).run_df, ∃ fz,
      (countedDb rawAuc).flatzinc_df.find?
          (fun f => decide (f.id = r.flatzinc_id)) = some fz ∧
      ((countedDb rawAuc).add_objective_score.run_df.get
          ⟨0, by decide⟩).objective_score =
        optDiv (optAbs (optSub r.objective_bb fz.objective_bb))
          (optSub fz.objective_ub fz.objective_lb) ∧
      (∀ a b x : Int, fz.objective_lb = some a → fz.objective_ub = some b → a ≠ b →
        r.objective_bb = some x → fz.objective_bb = some x →
        ((countedDb rawAuc).add_objective_score.run_df.get
            ⟨0, by decide⟩).objective_score = some 0) ∧
      (∀ a b : Int, fz.objective_lb = some a → fz.objective_ub = some b → a < b →
        (fz.objective_bb = some a ∧ fz.objective_wb = some b ∨
          fz.objective_bb = some b ∧ fz.objective_wb = some a) →
        r.objective_bb = fz.objective_wb →
        ((countedDb rawAuc).add_objective_score.run_df.get
            ⟨0, by decide⟩).objective_score = some 1) :=
  c7_objective_score (countedDb rawAuc) _
    (List.get_mem (countedDb rawAuc).add_objective_score.run_df 0 (by decide))

/-- C8 counterexample: on the AUC scenario (one minimizing run, solutions at
objective 10 and 6 over the metric window [0, 2]) the code's `autc_score` is
0 because the baseline rectangle `(flatzinc.lsol - flatzinc.fsol) *
flatzinc.objective_lb` is subtracted from the numerator (plot.py 650), while
the spec's formula, which omits that subtraction, yields 3/2. -/
theorem c8_counterexample :
    (Database.read rawAuc true).2.map (fun db => db.run_df.map (fun r => r.autc_score))
        = some [some 0] ∧
    specAucScore (some ProblemType.minimize) (some 12) (some 0) (some 2) (some 10)
        (some 6) (some 0) (some 2) (some 6) (some 10) = some (3 / 2) ∧
    some ((3 : ℚ) / 2) ≠ (some 0 : Option ℚ) := by
  refine ⟨?_, ?_, ?_⟩
  · have h : (Database.read rawAuc true).2.map
        (fun db => db.run_df.map (fun r => r.autc_score))
        = some [optDiv (some 0) (some 8)] := by rfl
    rw [h, optDiv_zero_num (by norm_num : (8:Int) ≠ 0)]
  · show optDiv (some 12) (some 8) = some (3 / 2)
    show (if (8:Int) = 0 then none else some (((12:Int):ℚ) / ((8:Int):ℚ))) = some (3 / 2)
    rw [if_neg (by norm_num : ¬ ((8:Int) = 0))]
    norm_num
  · intro heq
    have h2 : (3 : ℚ) / 2 = 0 := Option.some.inj heq
    norm_num at h2

/-- C8 (amended): when `add_auc_score` succeeds, the six bound-containment
asserts hold on the joined frame, the run table becomes the scored rows, and
each scored row's value is the step integral extended to the flatzinc window
(worst bound before the run's first solution, best bound after its last),
MINUS the baseline rectangle `(flatzinc.lsol - flatzinc.fsol) *
flatzinc.objective_lb`, divided by the flatzinc rectangle area
`(objective_ub - objective_lb) * (lsol - fsol)`, kept as is if minimizing
and flipped to `1 - ratio` if maximizing (null problem type gives null). -/
theorem c8_auc_score {cs : ColSpec} {setScore : RunRow → Option ℚ → RunRow}
    {db db' : Database} (h : db.add_auc_score cs setScore = some db') :
    db.aucAsserts cs ∧
    db'.run_df = (db.aucJoined cs).map (aucScoredRun cs setScore) ∧
    ∀ x ∈ db.aucJoined cs,
      aucScoredRun cs setScore x = setScore x.1
        (aucScoreOf (x.2.2.bind (fun fz => fz.problem_type))
          (optDiv
            (optSub
              (optAdd (optAdd x.2.1
                (optMul (optSub (cs.runF x.1) (x.2.2.bind (fun fz => cs.fzF fz)))
                  x.1.objective_wb))
                (optMul (optSub (x.2.2.bind (fun fz => cs.fzL fz)) (cs.runL x.1))
                  x.1.objective_bb))
              (optMul (optSub (x.2.2.bind (fun fz => cs.fzL fz))
                  (x.2.2.bind (fun fz => cs.fzF fz)))
                (x.2.2.bind (fun fz => fz.objective_lb))))
            (optMul (optSub (x.2.2.bind (fun fz => fz.objective_ub))
                (x.2.2.bind (fun fz => fz.objective_lb)))
              (optSub (x.2.2.bind (fun fz => cs.fzL fz))
                (x.2.2.bind (fun fz => cs.fzF fz)))))) := by
  unfold Database.add_auc_score at h
  have h2 := assertTrue_some h
  refine ⟨h2.1, ?_, ?_⟩
  · rw [h2.2]
  · intro x hx
    rfl

/-- Closed instantiation of `c8_auc_score` at the AUC scenario (`time`
column, writing `autc_score`). -/
theorem c8_auc_score_witness :
    Database.add_auc_score timeCol (fun r s => { r with autc_score := s }) (fsolDb rawAuc)
        = some ((Database.add_auc_score timeCol (fun r s => { r with autc_score := s })
            (fsolDb rawAuc)).getD emptyDatabase) ∧
    ((fsolDb rawAuc).aucAsserts timeCol ∧
     ((Database.add_auc_score timeCol (fun r s => { r with autc_score := s })
         (fsolDb rawAuc)).getD emptyDatabase).run_df
       = ((fsolDb rawAuc).aucJoined timeCol).map
           (aucScoredRun timeCol (fun r s => { r with autc_score := s })) ∧
     ∀ x ∈ (fsolDb rawAuc).aucJoined timeCol,
       aucScoredRun timeCol (fun r s => { r with autc_score := s }) x
         = (fun r s => { r with autc_score := s }) x.1
            (aucScoreOf (x.2.2.bind (fun fz => fz.problem_type))
              (optDiv
                (optSub
                  (optAdd (optAdd x.2.1
                    (optMul (optSub (timeCol.runF x.1) (x.2.2.bind (fun fz => timeCol.fzF fz)))
                      x.1.objective_wb))
                    (optMul (optSub (x.2.2.bind (fun fz => timeCol.fzL fz)) (timeCol.runL x.1))
                      x.1.objective_bb))
                  (optMul (optSub (x.2.2.bind (fun fz => timeCol.fzL fz))
                      (x.2.2.bind (fun fz => timeCol.fzF fz)))
                    (x.2.2.bind (fun fz => fz.objective_lb))))
                (optMul (optSub (x.2.2.bind (fun fz => fz.objective_ub))
                    (x.2.2.bind (fun fz => fz.objective_lb)))
                  (optSub (x.2.2.bind (fun fz => timeCol.fzL fz))
                    (x.2.2.bind (fun fz => timeCol.fzF fz))))))) :=
  ⟨by rfl, c8_auc_score (by rfl)⟩

theorem assertNamesSorted_some {df res : List ProblemRow}
    (h : assertNamesSorted df = some res) : res = df := by
  unfold assertNamesSorted at h
  split at h
  · exact (Option.some.inj h).symm
  · cases h

theorem mem_zip_tail_infix {l : List Int} {p : Int × Int} (hp : p ∈ l.zip l.tail) :
    List.IsInfix [p.1, p.2] l := by
  induction l with
  | nil => cases hp
  | cons x t ih =>
    cases t with
    | nil => cases hp
    | cons y t2 =>
      rcases List.mem_cons.mp hp with he | h2
      · rw [he]
        exact ⟨[], t2, rfl⟩
      · exact (ih h2).trans (List.infix_cons (List.infix_refl _))
  
theorem pair_mem_zip_aux (s t : List Int) (a b : Int) :
    (a, b) ∈ (s ++ a :: b :: t).zip (s ++ a :: b :: t).tail := by
  induction s with
  | nil => exact List.mem_cons_self _ _
  | cons x s ih =>
    cases s with
    | nil => exact List.mem_cons_of_mem _ ih
    | cons y s2 => exact List.mem_cons_of_mem _ ih

theorem pair_mem_zip_append (s t : List Int) (a b : Int) :
    (a, b) ∈ ((s ++ [a, b]) ++ t).zip (((s ++ [a, b]) ++ t).tail) := by
  have h : (s ++ [a, b]) ++ t = s ++ a :: b :: t := by
    rw [List.append_assoc]
    rfl
  rw [h]
  exact pair_mem_zip_aux s t a b

theorem increasesB_iff (objs : List Int) :
    increasesB objs = true ↔ ∃ a b : Int, a < b ∧ [a, b] <:+: objs := by
  unfold increasesB
  rw [List.any_eq_true]
  constructor
  · rintro ⟨ab, hmem, hab⟩
    exact ⟨ab.1, ab.2, by simpa using hab, mem_zip_tail_infix hmem⟩
  · rintro ⟨a, b, hab, s, t, rfl⟩
    exact ⟨(a, b), pair_mem_zip_append s t a b, by simpa using hab⟩

theorem decreasesB_iff (objs : List Int) :
    decreasesB objs = true ↔ ∃ a b : Int, b < a ∧ [a, b] <:+: objs := by
  unfold decreasesB
  rw [List.any_eq_true]
  constructor
  · rintro ⟨ab, hmem, hab⟩
    exact ⟨ab.1, ab.2, by simpa using hab, mem_zip_tail_infix hmem⟩
  · rintro ⟨a, b, hab, s, t, rfl⟩
    exact ⟨(a, b), pair_mem_zip_append s t a b, by simpa using hab⟩

/-- C2: in `add_problem_type`, the per-run `increase`/`decrease` flags hold
exactly when some consecutive objective delta of the run's event-ordered
objectives is positive/negative; a non-monotonic run (both flags) makes the
pass fail fatally with one message per offending (problem, instance,
configuration) triple; with all runs monotonic, a problem having both an
increasing and a decreasing run makes the pass fail fatally; and on success
every problem row is typed maximize if some of its runs increases, else
minimize.  Concretely: the objective sequence `[1,2,2,3]` increases only and
gives type maximize, `[3,2,2,1]` decreases only and gives type minimize, and
`[1,2,1]` is fatal with the monotonicity message. -/
theorem c2_problem_type :
    (∀ objs : List Int,
      (increasesB objs = true ↔ ∃ a b : Int, a < b ∧ [a, b] <:+: objs) ∧
      (decreasesB objs = true ↔ ∃ a b : Int, b < a ∧ [a, b] <:+: objs)) ∧
    (∀ db : Database,
      (∀ v ∈ db.runVariations,
        v.increase = increasesB (db.runObjectives v.run_id) ∧
        v.decrease = decreasesB (db.runObjectives v.run_id) ∧
        (v.monotonic = false ↔
          (v.increase = true ∧ v.decrease = true))) ∧
      (db.notMonotonicTriples ≠ [] →
        db.add_problem_type = (db.notMonotonicTriples.map (fun t =>
          "objective value of '" ++ t.2.1 ++ "' from '" ++ t.1 ++
            "' runned with '" ++ t.2.2 ++ "' is not monotonic"), none)) ∧
      (db.notMonotonicTriples = [] →
        ∀ v ∈ db.problemVariations, v.num_increase ≠ 0 → v.num_decrease ≠ 0 →
          db.add_problem_type = ((db.problemVariations.filter (fun v =>
              decide (v.num_decrease ≠ 0) && decide (v.num_increase ≠ 0))).map (fun v =>
            "problem '" ++ toString v.problem_id ++ "' has " ++
              toString v.num_decrease ++ " decreasing runs and " ++
              toString v.num_increase ++ " increasing"), none)) ∧
      (∀ db2, db.add_problem_type = ([], some db2) →
        ∀ p ∈ db2.problem_df, ∃ v ∈ db.problemVariations,
          p.id = v.problem_id ∧ p.name = v.problem_name ∧
          p.type = some (if v.increase then ProblemType.maximize
            else ProblemType.minimize))) ∧
    increasesB ((baseDb rawIncreasing).runObjectives (some 0)) = true ∧
    decreasesB ((baseDb rawIncreasing).runObjectives (some 0)) = false ∧
    increasesB ((baseDb rawDecreasing).runObjectives (some 0)) = false ∧
    decreasesB ((baseDb rawDecreasing).runObjectives (some 0)) = true ∧
    (typedDb rawIncreasing).problem_df.map (fun p => p.type)
        = [some ProblemType.maximize] ∧
    (typedDb rawDecreasing).problem_df.map (fun p => p.type)
        = [some ProblemType.minimize] ∧
    (baseDb rawBoth).add_problem_type =
      (["objective value of 'I' from 'P' runned with 'a_b_none' is not monotonic"],
        none) := by
  refine ⟨fun objs => ⟨increasesB_iff objs, decreasesB_iff objs⟩, ?_,
    by decide, by decide, by decide, by decide, by decide, by decide, by decide⟩
  intro db
  refine ⟨?_, ?_, ?_, ?_⟩
  · intro v hv
    unfold Database.runVariations at hv
    rcases List.mem_map.mp hv with ⟨k, hk, he⟩
    subst he
    refine ⟨rfl, rfl, ?_⟩
    show (!increasesB (db.runObjectives k) || !decreasesB (db.runObjectives k)) = false
        ↔ (increasesB (db.runObjectives k) = true ∧ decreasesB (db.runObjectives k) = true)
    generalize increasesB (db.runObjectives k) = i
    generalize decreasesB (db.runObjectives k) = d
    cases i <;> cases d <;> decide
  · intro hne
    rcases he : db.notMonotonicTriples with _ | ⟨t, ts⟩
    · exact absurd he hne
    · simp only [Database.add_problem_type]
      rw [he]
  · intro hnil v hv hinc hdec
    have hb : v ∈ db.problemVariations.filter (fun v =>
        decide (v.num_decrease ≠ 0) && decide (v.num_increase ≠ 0)) := by
      apply List.mem_filter.mpr
      refine ⟨hv, ?_⟩
      rw [Bool.and_eq_true, decide_eq_true_eq, decide_eq_true_eq]
      exact ⟨hdec, hinc⟩
    simp only [Database.add_problem_type]
    rw [hnil]
    rcases hbe : db.problemVariations.filter (fun v =>
        decide (v.num_decrease ≠ 0) && decide (v.num_increase ≠ 0)) with _ | ⟨b, bs⟩
    · rw [hbe] at hb
      cases hb
    · rw [hbe]
  · intro db2 hsucc p hp
    simp only [Database.add_problem_type] at hsucc
    split at hsucc
    · exact Option.noConfusion (congrArg Prod.snd hsucc)
    · split at hsucc
      · exact Option.noConfusion (congrArg Prod.snd hsucc)
      · split at hsucc
        · exact Option.noConfusion (congrArg Prod.snd hsucc)
        · rename_i pdf2 heq
          have h5 : ({db with problem_df := pdf2} : Database) = db2 :=
            Option.some.inj (congrArg Prod.snd hsucc)
          have hp2 : p ∈ pdf2 := by
            rw [← h5] at hp
            exact hp
          rw [assertNamesSorted_some heq] at hp2
          have hp3 := (List.perm_insertionSort problemIdLe _).mem_iff.mp hp2
          rcases List.mem_map.mp hp3 with ⟨v, hv, he⟩
          subst he
          exact ⟨v, hv, rfl, rfl, rfl⟩

/-- Witness for C2: the fatal-run characterization instantiated at the
`[1,2,1]` scenario, whose single run is non-monotonic. -/
theorem c2_problem_type_witness :
    (baseDb rawBoth).notMonotonicTriples ≠ [] ∧
    (baseDb rawBoth).add_problem_type = ((baseDb rawBoth).notMonotonicTriples.map (fun t =>
      "objective value of '" ++ t.2.1 ++ "' from '" ++ t.1 ++
        "' runned with '" ++ t.2.2 ++ "' is not monotonic"), none) :=
  ⟨by decide, (c2_problem_type.2.1 (baseDb rawBoth)).2.1 (by decide)⟩

/-- C1 counterexample: on the end-to-end scenario, building WITH enrichment
does not succeed - the `a_b_none` run's objective sequence is (0, 10, 5)
because the `start` event contributes objective 0, so `add_problem_type`
aborts fatally with the monotonicity message and no enriched database is
produced. -/
theorem c1_counterexample :
    Database.read rawEndToEnd true =
      (["objective value of 'I' from 'P' runned with 'a_b_none' is not monotonic"],
        none) := by
  decide

/-- C1 (amended): on the end-to-end scenario the freshly built tables are as
claimed - one problem `P` (still untyped), one instance `I`, two
configurations with var_order {a, c} / value_order {b, d} / restart
{none, luby}, two runs, and five events sorted by (run, time) with dense ids -
but the enrichment aborts on the non-monotonic `a_b_none` run (objective
sequence 0, 10, 5 including the `start` event), so no problem type, bounds
or scores are ever produced. -/
theorem c1_end_to_end :
    Database.read rawEndToEnd false =
      ([], some
        { raw_df := rawEndToEnd
          problem_df := problemOnlyP
          flatzinc_df := flatzincOnlyI
          run_df := runTableEE
          configuration_df := configurationTableEE
          event_df := [
            { id := 0, run_id := some 0, type := EventType.start, num_solutions := 0,
              objective := 0, time := 0, num_decisions := 0, num_conflicts := 0,
              num_dom_updates := 0, num_restarts := 0 },
            { id := 1, run_id := some 0, type := EventType.new_solution,
              num_solutions := 1, objective := 10, time := 100, num_decisions := 100,
              num_conflicts := 0, num_dom_updates := 0, num_restarts := 0 },
            { id := 2, run_id := some 0, type := EventType.new_solution,
              num_solutions := 2, objective := 5, time := 200, num_decisions := 200,
              num_conflicts := 0, num_dom_updates := 0, num_restarts := 0 },
            { id := 3, run_id := some 1, type := EventType.start, num_solutions := 0,
              objective := 0, time := 0, num_decisions := 0, num_conflicts := 0,
              num_dom_updates := 0, num_restarts := 0 },
            { id := 4, run_id := some 1, type := EventType.new_solution,
              num_solutions := 1, objective := 8, time := 50, num_decisions := 50,
              num_conflicts := 0, num_dom_updates := 0, num_restarts := 0 }] }) ∧
    (baseDb rawEndToEnd).improve =
      (["objective value of 'I' from 'P' runned with 'a_b_none' is not monotonic"],
        none) := by
  constructor
  · decide
  · decide

theorem optAdd_none_left (y : Option Int) : optAdd none y = none := by cases y <;> rfl

theorem optSub_none_left (y : Option Int) : optSub none y = none := by cases y <;> rfl

theorem optDiv_none_left (y : Option Int) : optDiv none y = none := by cases y <;> rfl

theorem aucScoreOf_none (t : Option ProblemType) : aucScoreOf t none = none := by
  cases t with
  | none => rfl
  | some pt => cases pt <;> rfl

theorem aucScoredRun_none (cs : ColSpec) (setScore : RunRow → Option ℚ → RunRow)
    (r0 : RunRow) (fz0 : Option FlatzincRow) :
    aucScoredRun cs setScore (r0, none, fz0) = setScore r0 none := by
  unfold aucScoredRun
  dsimp only []
  rw [optAdd_none_left, optAdd_none_left, optSub_none_left, optDiv_none_left,
    aucScoreOf_none]

theorem no_solution_group_miss (db : Database) (r : RunRow)
    (hno : ∀ e ∈ db.event_df, e.run_id = some r.id → e.type ≠ EventType.new_solution) :
    (some r.id) ∉ groupKeys (fun e => e.run_id)
      (db.event_df.filter (fun e => decide (e.type = EventType.new_solution))) := by
  intro hmem
  rcases (mem_groupKeys _ _ _).mp hmem with ⟨e, he, hkey⟩
  rcases List.mem_filter.mp he with ⟨he2, htype⟩
  rw [decide_eq_true_eq] at htype
  exact hno e he2 hkey htype

/-- C10: a run with no `new_solution` event gets null `fsol`/`lsol` values
from the left join in `add_bounds`, a null step integral in the AUC join, and
hence a null AUC score (null propagates through the area, the ratio and the
direction fix); and on the no-solution scenario the full enrichment completes
without any fatal assert, the solution-less run ending with null
`time_fsol/lsol`, `num_decisions_fsol/lsol`, `autc_score` and `audc_score`
while its sibling run gets concrete values. -/
theorem c10_no_solution_runs :
    (∀ (cs : ColSpec) (db : Database), ∀ r ∈ db.run_df,
      (∀ e ∈ db.event_df, e.run_id = some r.id → e.type ≠ EventType.new_solution) →
      cs.setRun r none none ∈ (db.add_bounds cs).run_df) ∧
    (∀ (cs : ColSpec) (setScore : RunRow → Option ℚ → RunRow) (db : Database),
      ∀ r ∈ db.run_df,
      (∀ e ∈ db.event_df, e.run_id = some r.id → e.type ≠ EventType.new_solution) →
      (r, (none : Option Int),
        db.flatzinc_df.find? (fun fz => decide (fz.id = r.flatzinc_id)))
          ∈ db.aucJoined cs ∧
      ∀ x : RunRow × Option Int × Option FlatzincRow, x.2.1 = none →
        aucScoredRun cs setScore x = setScore x.1 none) ∧
    (Database.read rawNoSolution true).2.isSome = true ∧
    (Database.read rawNoSolution true).2.map (fun db => db.run_df.map (fun r =>
        (r.time_fsol, r.time_lsol, r.num_decisions_fsol, r.num_decisions_lsol)))
      = some [(none, none, none, none), (some 1, some 2, some 1, some 2)] ∧
    (Database.read rawNoSolution true).2.map (fun db => db.run_df.map (fun r =>
        (r.autc_score.isNone, r.audc_score.isNone)))
      = some [(true, true), (false, false)] := by
  refine ⟨?_, ?_, by decide, by decide, by decide⟩
  · intro cs db r hr hno
    have hfind : (((groupKeys (fun e => e.run_id)
        (db.event_df.filter (fun e => decide (e.type = EventType.new_solution)))).map (fun k =>
          (k, ((keyRows (fun e => e.run_id)
              (db.event_df.filter (fun e => decide (e.type = EventType.new_solution))) k).map
                cs.ev).min?,
            ((keyRows (fun e => e.run_id)
              (db.event_df.filter (fun e => decide (e.type = EventType.new_solution))) k).map
                cs.ev).max?))).find?
        (fun g => decide (g.1 = some r.id))) = none :=
      find?_groupAgg_none (fun k =>
        (((keyRows (fun e => e.run_id)
            (db.event_df.filter (fun e => decide (e.type = EventType.new_solution))) k).map
              cs.ev).min?,
          ((keyRows (fun e => e.run_id)
            (db.event_df.filter (fun e => decide (e.type = EventType.new_solution))) k).map
              cs.ev).max?)) (no_solution_group_miss db r hno)
    have h2 := List.mem_map_of_mem (fun r : RunRow =>
      let g := ((groupKeys (fun e => e.run_id)
          (db.event_df.filter (fun e => decide (e.type = EventType.new_solution)))).map (fun k =>
        let vals := (keyRows (fun e => e.run_id)
            (db.event_df.filter (fun e => decide (e.type = EventType.new_solution))) k).map cs.ev
        (k, vals.min?, vals.max?))).find? (fun g => decide (g.1 = some r.id))
      cs.setRun r (g.bind (fun g => g.2.1)) (g.bind (fun g => g.2.2))) hr
    dsimp only [] at h2
    rw [hfind] at h2
    exact h2
  · intro cs setScore db r hr hno
    constructor
    · have hfind : (((groupKeys (fun e => e.run_id)
          (db.event_df.filter (fun e => decide (e.type = EventType.new_solution)))).map (fun k =>
            (k, aucSum cs (keyRows (fun e => e.run_id)
              (db.event_df.filter (fun e => decide (e.type = EventType.new_solution))) k)))).find?
          (fun g => decide (g.1 = some r.id))) = none :=
        find?_groupAgg_none (fun k => aucSum cs (keyRows (fun e => e.run_id)
          (db.event_df.filter (fun e => decide (e.type = EventType.new_solution))) k))
          (no_solution_group_miss db r hno)
      have h2 := List.mem_map_of_mem (fun r : RunRow =>
        (r, (((groupKeys (fun e => e.run_id)
            (db.event_df.filter (fun e => decide (e.type = EventType.new_solution)))).map (fun k =>
          (k, aucSum cs (keyRows (fun e => e.run_id)
            (db.event_df.filter (fun e => decide (e.type = EventType.new_solution))) k)))).find?
            (fun g => decide (g.1 = some r.id))).map (fun g => g.2),
         db.flatzinc_df.find? (fun fz => decide (fz.id = r.flatzinc_id)))) hr
      dsimp only [] at h2
      rw [hfind] at h2
      exact h2
    · intro x hx
      obtain ⟨r0, a0, fz0⟩ := x
      dsimp only [] at hx
      subst hx
      exact aucScoredRun_none cs setScore r0 fz0

/-- Witness for C10: the `add_bounds` half instantiated at the no-solution
scenario's solution-less run with the `time` column. -/
theorem c10_no_solution_runs_witness :
    ({ id := 0, flatzinc_id := 0, configuration_id := 0 } : RunRow)
        ∈ (baseDb rawNoSolution).run_df ∧
    (∀ e ∈ (baseDb rawNoSolution).event_df,
      e.run_id = some ({ id := 0, flatzinc_id := 0, configuration_id := 0 } : RunRow).id →
      e.type ≠ EventType.new_solution) ∧
    timeCol.setRun { id := 0, flatzinc_id := 0, configuration_id := 0 } none none
      ∈ ((baseDb rawNoSolution).add_bounds timeCol).run_df :=
  ⟨by decide, by decide,
    c10_no_solution_runs.1 timeCol (baseDb rawNoSolution) _ (by decide) (by decide)⟩
